import Mathlib

/-!
Verification of the Jandroid rule-evaluation engine (Android plugin) against
its natural-language specification.

The Python sources under `src/` are shallowly embedded as Lean definitions:
dictionaries become association lists in insertion order, fallible code
returns `Except PyErr`, and the recursive call-graph traversal carries an
explicit fuel argument (the termination theorems show that enough fuel always
exists).  The external Androguard layer (the "Bytecode Index" of the spec) is
abstracted by a finite `Dex` structure listing methods, call edges and the
class hierarchy; pattern arguments `"."`/`".*"` are treated as the "don't
care" wildcards that the repository's own doc comments ascribe to them.
CPython reifies sets to lists in a per-process deterministic but unspecified
order; wherever the Python code runs `list(set(...))` the embedding applies
an explicit oracle function carried in the context.
-/

set_option maxRecDepth 4000

/-- Python exception kinds raised by the modelled code paths. -/
inductive PyErr where
  | typeError (msg : String)
  | nameError (name : String)
  | keyError (key : String)
  | indexError
  | jandroidException (reason : String)
deriving DecidableEq

/-- Prefix test on character lists (kernel-reducible). -/
def chIsPrefix : List Char → List Char → Bool
  | [], _ => true
  | _ :: _, [] => false
  | a :: as, b :: bs => a == b && chIsPrefix as bs

/-- Substring test on character lists (kernel-reducible). -/
def chContains (needle : List Char) : List Char → Bool
  | [] => needle.isEmpty
  | c :: rest => chIsPrefix needle (c :: rest) || chContains needle rest

/-- Python substring test `needle in hay` (for non-empty needles). -/
def pyIn (needle hay : String) : Bool :=
  chContains needle.data hay.data

/-- Left-to-right splitter on character lists; the fuel is an embedding
artifact (one unit per consumed character suffices) kept so that the
function is structurally recursive and kernel-reducible. -/
def pySplitF (sep : List Char) : Nat → List Char → List Char → List (List Char)
  | _, acc, [] => [acc.reverse]
  | 0, acc, rest => [acc.reverse ++ rest]
  | fuel + 1, acc, c :: rest =>
      if chIsPrefix sep (c :: rest) then
        acc.reverse :: pySplitF sep fuel [] (List.drop sep.length (c :: rest))
      else
        pySplitF sep fuel (c :: acc) rest

/-- Python `s.split(sep)` for a non-empty separator, with non-overlapping
left-to-right matches. -/
def pySplit (s sep : String) : List String :=
  if sep.isEmpty then [s]
  else (pySplitF sep.data (s.data.length + 1) [] s.data).map String.mk

/-- String joining with a separator (kernel-reducible). -/
def joinWith (sep : String) : List String → String
  | [] => ""
  | [x] => x
  | x :: rest => x ++ sep ++ joinWith sep rest

/-- Python `s.replace(old, new)` for a non-empty `old`: equals
`new.join(s.split(old))`. -/
def pyReplace (s old new : String) : String :=
  joinWith new (pySplit s old)

/-- Python `s.startswith(pre)` (kernel-reducible). -/
def pyStartsWith (s pre : String) : Bool :=
  chIsPrefix pre.data s.data

/-- Python `s.endswith(suf)` (kernel-reducible). -/
def pyEndsWith (s suf : String) : Bool :=
  chIsPrefix suf.data.reverse s.data.reverse

/-- Whitespace recognised by the model of Python `strip()`. -/
def chIsSpace (c : Char) : Bool :=
  c == ' ' || c == '\t' || c == '\n' || c == '\r'

/-- Python `s.strip()` (kernel-reducible). -/
def pyStrip (s : String) : String :=
  String.mk (((s.data.dropWhile chIsSpace).reverse.dropWhile chIsSpace).reverse)

/-- Python `s[0] == c`, which raises `IndexError` on an empty string. -/
def pyFirstCharIs (s : String) (c : Char) : Except PyErr Bool :=
  if s.isEmpty then .error .indexError else .ok (s.front == c)

/-- Python `l[1]`, which raises `IndexError` when the list is too short. -/
def pyIdx1 (l : List String) : Except PyErr String :=
  match l.drop 1 with
  | [] => .error .indexError
  | x :: _ => .ok x

/-- A Python dict from link identifier to a list of strings, kept in
insertion order (CPython dicts preserve insertion order). -/
abbrev Links := List (String × List String)

/-- Lookup of a key in a link dictionary (keys are unique in a Python dict,
so the first hit is the entry). -/
def linksFind : Links → String → Option (List String)
  | [], _ => none
  | (k, v) :: rest, key => if k = key then some v else linksFind rest key

/-- Source `analysis_utils.py AnalysisUtils.fn_get_linked_items`: return the value list for
a key, or the empty list when the key is not present. -/
def AnalysisUtils.fn_get_linked_items (current_links : Links) (link_key : String) :
    List String :=
  match linksFind current_links link_key with
  | none => []
  | some link_items => link_items

/-- Python `current_links[object_key].append(return_value)`: in-place append
to the list stored under an existing key. -/
def linksAppendValue : Links → String → String → Links
  | [], _, _ => []
  | (k, v) :: rest, key, value =>
      if k = key then (k, v ++ [value]) :: rest
      else (k, v) :: linksAppendValue rest key value

/-- Source `analysis_utils.py fn_convert_returns_to_links`: each return item
is a single-key dict (modelled as a pair).  Keys not starting with `@` are
skipped; a value already present under a key is not appended again; an
unknown key is created at the end of the dict with a one-value list.
Indexing `object_key[0]` raises `IndexError` for an empty key. -/
def fn_convert_returns_to_links :
    List (String × String) → Links → Except PyErr Links
  | [], current_links => .ok current_links
  | (object_key, return_value) :: rest, current_links =>
      if object_key.isEmpty then .error .indexError
      else if object_key.front != '@' then
        fn_convert_returns_to_links rest current_links
      else
        match linksFind current_links object_key with
        | some vals =>
            if return_value ∈ vals then
              fn_convert_returns_to_links rest current_links
            else
              fn_convert_returns_to_links rest
                (linksAppendValue current_links object_key return_value)
        | none =>
            fn_convert_returns_to_links rest
              (current_links ++ [(object_key, [return_value])])

lemma linksFind_appendValue (l : Links) (k v : String) (key : String) :
    linksFind (linksAppendValue l k v) key =
      if key = k then (linksFind l k).map (fun w => w ++ [v])
      else linksFind l key := by
  induction l with
  | nil => simp [linksAppendValue, linksFind]
  | cons hd tl ih =>
      obtain ⟨hk, hv⟩ := hd
      by_cases h1 : hk = k
      · subst h1
        by_cases h2 : key = hk
        · subst h2
          simp [linksAppendValue, linksFind]
        · rw [linksAppendValue, if_pos rfl, linksFind, if_neg (fun h => h2 h.symm),
            if_neg h2, linksFind, if_neg (fun h => h2 h.symm)]
      · by_cases h2 : hk = key
        · subst h2
          rw [linksAppendValue, if_neg h1, linksFind, if_pos rfl, if_neg h1,
            linksFind, if_pos rfl]
        · rw [linksAppendValue, if_neg h1]
          simp [linksFind, h1, h2, ih]

lemma linksFind_appendNew (l : Links) (k v : String) (key : String) :
    linksFind (l ++ [(k, [v])]) key =
      match linksFind l key with
      | some w => some w
      | none => if key = k then some [v] else none := by
  induction l with
  | nil =>
      by_cases h : key = k
      · subst h
        simp [linksFind]
      · simp only [List.nil_append, linksFind]
        rw [if_neg (fun hh => h hh.symm), if_neg h]
  | cons hd tl ih =>
      obtain ⟨hk, hv⟩ := hd
      by_cases h2 : hk = key <;> simp [linksFind, h2, ih]

/-- One evaluation step of `fn_convert_returns_to_links` only ever appends to
the list resolved for any identifier. -/
lemma convert_returns_extends (rets : List (String × String)) :
    ∀ links links2, fn_convert_returns_to_links rets links = .ok links2 →
      ∀ id, ∃ tl, AnalysisUtils.fn_get_linked_items links2 id =
        AnalysisUtils.fn_get_linked_items links id ++ tl := by
  induction rets with
  | nil =>
      intro links links2 h id
      simp [fn_convert_returns_to_links] at h
      exact ⟨[], by simp [h]⟩
  | cons hd tl ih =>
      intro links links2 h id
      obtain ⟨object_key, return_value⟩ := hd
      simp only [fn_convert_returns_to_links] at h
      by_cases hemp : object_key.isEmpty
      · simp [hemp] at h
      · simp only [hemp, if_false, Bool.false_eq_true] at h
        by_cases hat : object_key.front != '@'
        · simp only [hat, if_true] at h
          exact ih links links2 h id
        · simp only [hat, if_false, Bool.false_eq_true] at h
          cases hfind : linksFind links object_key with
          | some vals =>
              simp only [hfind] at h
              by_cases hmem : return_value ∈ vals
              · simp only [hmem, if_true] at h
                exact ih links links2 h id
              · simp only [hmem, if_false] at h
                obtain ⟨tl2, htl2⟩ := ih _ links2 h id
                rw [htl2]
                unfold AnalysisUtils.fn_get_linked_items
                rw [linksFind_appendValue]
                by_cases hid : id = object_key
                · subst hid
                  rw [hfind]
                  exact ⟨[return_value] ++ tl2, by simp [AnalysisUtils.fn_get_linked_items, hfind]⟩
                · rw [if_neg hid]
                  exact ⟨tl2, rfl⟩
          | none =>
              simp only [hfind] at h
              obtain ⟨tl2, htl2⟩ := ih _ links2 h id
              rw [htl2]
              unfold AnalysisUtils.fn_get_linked_items
              rw [linksFind_appendNew]
              by_cases hid : id = object_key
              · subst hid
                rw [hfind]
                exact ⟨[return_value] ++ tl2, by simp [AnalysisUtils.fn_get_linked_items, hfind]⟩
              · refine ⟨tl2, ?_⟩
                cases hl : linksFind links id <;>
                  simp [AnalysisUtils.fn_get_linked_items, hl, hid]

/-- One evaluation of `fn_convert_returns_to_links` preserves duplicate
freedom of every identifier's value list. -/
lemma convert_returns_nodup (rets : List (String × String)) :
    ∀ links links2, fn_convert_returns_to_links rets links = .ok links2 →
      ∀ id, (AnalysisUtils.fn_get_linked_items links id).Nodup →
        (AnalysisUtils.fn_get_linked_items links2 id).Nodup := by
  induction rets with
  | nil =>
      intro links links2 h id hnd
      simp [fn_convert_returns_to_links] at h
      rwa [← h]
  | cons hd tl ih =>
      intro links links2 h id hnd
      obtain ⟨object_key, return_value⟩ := hd
      simp only [fn_convert_returns_to_links] at h
      by_cases hemp : object_key.isEmpty
      · simp [hemp] at h
      · simp only [hemp, if_false, Bool.false_eq_true] at h
        by_cases hat : object_key.front != '@'
        · simp only [hat, if_true] at h
          exact ih links links2 h id hnd
        · simp only [hat, if_false, Bool.false_eq_true] at h
          cases hfind : linksFind links object_key with
          | some vals =>
              simp only [hfind] at h
              by_cases hmem : return_value ∈ vals
              · simp only [hmem, if_true] at h
                exact ih links links2 h id hnd
              · simp only [hmem, if_false] at h
                refine ih _ links2 h id ?_
                unfold AnalysisUtils.fn_get_linked_items
                rw [linksFind_appendValue]
                by_cases hid : id = object_key
                · subst hid
                  rw [hfind]
                  simp only [Option.map_some]
                  have : AnalysisUtils.fn_get_linked_items links id = vals := by
                    simp [AnalysisUtils.fn_get_linked_items, hfind]
                  rw [this] at hnd
                  simp [List.nodup_append, hnd, hmem]
                · rw [if_neg hid]
                  simpa [AnalysisUtils.fn_get_linked_items] using hnd
          | none =>
              simp only [hfind] at h
              refine ih _ links2 h id ?_
              unfold AnalysisUtils.fn_get_linked_items
              rw [linksFind_appendNew]
              by_cases hid : id = object_key
              · subst hid
                rw [hfind]
                simp
              · cases hl : linksFind links id with
                | some w =>
                    simpa [AnalysisUtils.fn_get_linked_items, hl] using hnd
                | none => simp [hid]

/-- A method signature as exposed by the Androguard EncodedMethod objects. -/
structure PyMethod where
  className : String
  methodName : String
  desc : String
deriving DecidableEq

/-- The abstract Bytecode Index for one application: the finite data the
Androguard `Analysis` object exposes to the engine.  `calls` lists the
cross-reference edges (caller, callee); `classes` lists the internal classes
with their superclass names, in Androguard iteration order; `classCalls`
lists the (class, calling method) cross references used by class searches;
`externalClasses` names classes considered external. -/
structure Dex where
  methods : List PyMethod
  calls : List (PyMethod × PyMethod)
  classes : List (String × String)
  classCalls : List (String × PyMethod)
  externalClasses : List String

/-- Androguard `get_xref_from` for a method: its callers, in edge order. -/
def xrefFrom (dex : Dex) (m : PyMethod) : List PyMethod :=
  (dex.calls.filter (fun e => e.2 == m)).map (fun e => e.1)

/-- Androguard `get_xref_to` for a method: its callees, in edge order. -/
def xrefTo (dex : Dex) (m : PyMethod) : List PyMethod :=
  (dex.calls.filter (fun e => e.1 == m)).map (fun e => e.2)

/-- Matching semantics for one Androguard pattern argument as the repository
uses it: `fn_get_methods` passes each part through `re.escape` (so a literal
matches itself; stray escape backslashes introduced by
`fn_get_calls_from_method` are transparent) except for the "don't care"
values `"."` and `".*"`, which the repository's own doc comments describe as
matching anything. -/
def matchesPat (pat s : String) : Bool :=
  pat == "." || pat == ".*" || pyReplace pat "\\" "" == s

/-- Source `analysis_utils.py fn_get_methods`: all methods matching the
class/method/descriptor parts. -/
def fn_get_methods (dex : Dex) (class_part method_part desc_part : String) :
    List PyMethod :=
  dex.methods.filter (fun m =>
    matchesPat class_part m.className && matchesPat method_part m.methodName
      && matchesPat desc_part m.desc)

/-- A Python value that is dynamically either a bool or a str. -/
inductive PyBoolOrStr where
  | pyBool (b : Bool)
  | pyStr (s : String)
deriving DecidableEq

/-- Python `==` between such a value and a bool: a str never equals a bool. -/
def pyEqBool : PyBoolOrStr → Bool → Bool
  | .pyBool b, c => b == c
  | .pyStr _, _ => false

/-- Source `AnalysisUtils.__init__`: `keep_user_interaction` starts as the
bool `False`; when the config file has `SEARCHPARAMS.KEEP_INTERACTIVE_ELEMENTS`
the configparser string is stored; then any value `not in [True, False]`
(a str never is such, since Python `==` between str and bool is `False`) is
reset to the bool `False`. -/
def keep_user_interaction_init (config_value : Option String) : PyBoolOrStr :=
  let v : PyBoolOrStr := match config_value with
    | none => .pyBool false
    | some s => .pyStr s
  if pyEqBool v true || pyEqBool v false then v else .pyBool false

/-- Source `fn_check_for_user_interaction_element`: the fixed denylist. -/
def user_interaction_events : List String :=
  ["onBackPressed", "onClick", "onContextClick", "onContextItemSelected",
   "onContextMenuClosed", "onCreateContextMenu", "onDrag", "onFocusChange",
   "onHover", "onKey", "onKeyDown", "onKeyUp",
   "onLocalVoiceInteractionStarted", "onLocalVoiceInteractionStopped",
   "onLongClick", "onMenuItemClick", "onMenuItemSelected", "onMenuOpened",
   "onNavigateUp", "onOptionsItemSelected", "onOptionsMenuClosed",
   "onProvideAssistContent", "onProvideAssistData", "onSearchRequested",
   "onTouch", "onTouchEvent", "onTrackballEvent", "onUserInteraction"]

/-- Source `fn_check_for_user_interaction_element`: true iff the method name
equals one of the interactive-callback names. -/
def fn_check_for_user_interaction_element (method_name : String) : Bool :=
  user_interaction_events.foldl
    (fun is_interactive_method ev =>
      if method_name == ev then true else is_interactive_method) false

/-- Source `fn_get_calls_to_method`: callers of every matching method, with
interactive callbacks dropped while `keep_user_interaction == False`, and
duplicates skipped while preserving first-seen order. -/
def fn_get_calls_to_method (dex : Dex) (keep : PyBoolOrStr)
    (class_part method_part desc_part : String) : List PyMethod :=
  let method_objs := fn_get_methods dex class_part method_part desc_part
  method_objs.foldl (fun calling_methods method_obj =>
    (xrefFrom dex method_obj).foldl (fun calling_methods caller =>
      if pyEqBool keep false
          && fn_check_for_user_interaction_element caller.methodName then
        calling_methods
      else if caller ∈ calling_methods then calling_methods
      else calling_methods ++ [caller]) calling_methods) []

/-- Source `fn_get_calls_from_method`: callees of every matching method,
collected into a Python set and reified to a list through the per-process
set-order oracle `reifyM`. -/
def fn_get_calls_from_method (dex : Dex) (keep : PyBoolOrStr)
    (reifyM : List PyMethod → List PyMethod) (exclude_external : Bool)
    (class_part method_part desc_part : String) : List PyMethod :=
  let desc_part := pyReplace desc_part "[" "\\["
  let method_objs := fn_get_methods dex class_part method_part desc_part
  let called_methods := method_objs.foldl (fun called_methods method_obj =>
    (xrefTo dex method_obj).foldl (fun called_methods callee =>
      if exclude_external && callee.className ∈ dex.externalClasses then
        called_methods
      else if pyEqBool keep false
          && fn_check_for_user_interaction_element callee.methodName then
        called_methods
      else called_methods ++ [callee]) called_methods) []
  reifyM called_methods

/-- Source `fn_get_calls_to_class`: methods cross-referencing a class,
collected into a set and reified through `reifyM`. -/
def fn_get_calls_to_class (dex : Dex) (keep : PyBoolOrStr)
    (reifyM : List PyMethod → List PyMethod) (class_part : String) :
    List PyMethod :=
  let callers := (dex.classCalls.filter (fun e => e.1 == class_part)).map
    (fun e => e.2)
  let calling_methods := callers.foldl (fun calling_methods caller =>
    if pyEqBool keep false
        && fn_check_for_user_interaction_element caller.methodName then
      calling_methods
    else calling_methods ++ [caller]) []
  reifyM calling_methods

/-- Immediate internal subclasses: the internal classes whose superclass name
equals the given name, in class-list order. -/
def immediateSubclasses (dex : Dex) (class_name : String) : List String :=
  (dex.classes.filter (fun c => c.2 == class_name)).map (fun c => c.1)

/-- Loop body of `fn_find_subclasses`: each immediate subclass followed by
its own (recursively found) subclasses. -/
def subsCollect (rec : String → List String) (subs : List String) :
    List String :=
  subs.foldl (fun subclasses sub => subclasses ++ sub :: rec sub) []

/-- Source `fn_find_subclasses` (recursion is always enabled at the call
sites): collect immediate subclasses, recursing into each, then apply
`list(set(...))` via the process set-order oracle `reify`.  The memoisation
cache stores exactly the value this pure function computes, so the cache is
dropped from the model.  `fuel` bounds the recursion depth; the number of
internal classes suffices for any acyclic hierarchy (on a cyclic superclass
chain the Python itself would not terminate). -/
def fn_find_subclasses (dex : Dex) (reify : List String → List String) :
    Nat → String → List String
  | 0, _ => []
  | fuel + 1, class_name =>
      reify (subsCollect (fn_find_subclasses dex reify fuel)
        (immediateSubclasses dex class_name))

/-- Superclass names recorded for the internal classes matching a name. -/
def immediateSuperclasses (dex : Dex) (class_name : String) : List String :=
  (dex.classes.filter (fun c => c.1 == class_name)).map (fun c => c.2)

/-- Source `fn_find_superclasses`, modelled like `fn_find_subclasses`. -/
def fn_find_superclasses (dex : Dex) (reify : List String → List String) :
    Nat → String → List String
  | 0, _ => []
  | fuel + 1, class_name =>
      reify (subsCollect (fn_find_superclasses dex reify fuel)
        (immediateSuperclasses dex class_name))

/-- Python `s.split(sep)[0]`. -/
def splitHead (s sep : String) : String :=
  (pySplit s sep).headD ""

/-- Source `fn_get_class_method_desc_from_string`: split a smali string into
class, method and descriptor parts; raises `JandroidException` when the part
after `->` is missing or the arrow appears more than once. -/
def fn_get_class_method_desc_from_string (input_string : String) :
    Except PyErr (String × String × String) :=
  if pyIn "->" input_string then
    match pySplit input_string "->" with
    | [class_part, method_desc_part] =>
        if method_desc_part == "" then
          .error (.jandroidException "IncorrectMethodCall")
        else if pyIn "(" method_desc_part then
          let parts := pySplit method_desc_part "("
          .ok (class_part, parts.headD "", "(" ++ (parts.drop 1).headD "")
        else
          .ok (class_part, method_desc_part, ".")
    | _ => .error (.jandroidException "IncorrectMethodCall")
  else
    .ok (input_string, ".*", ".*")

/-- Cleanup applied by `fn_get_class_method_desc_from_method` to the
descriptor returned by Androguard. -/
def cleanDesc (desc : String) : String :=
  (pySplit (pyReplace desc " " "") "[access").headD ""

/-- Source `fn_get_class_method_desc_from_method`. -/
def fn_get_class_method_desc_from_method (m : PyMethod) :
    String × String × String :=
  (m.className, m.methodName, cleanDesc m.desc)

/-- Source `analysis_utils.py fn_get_strings`: the body evaluates the name
`search_string`, which is not defined anywhere in the function (its parameter
is called `string`), so every call raises `NameError` before reaching
Androguard. -/
def fn_get_strings (dex : Dex) (string : String) :
    Except PyErr (List String) :=
  .error (.nameError "search_string")

/-- Source `fn_get_calls_to_string`: fetches the strings first, which always
raises (see `fn_get_strings`); the xref processing after it is dead code. -/
def fn_get_calls_to_string (dex : Dex) (string : String) :
    Except PyErr (List PyMethod) :=
  match fn_get_strings dex string with
  | .error e => .error e
  | .ok _ => .ok []

/-- A value held under one search-type key of a SEARCH rule object: the
template JSON stores either a plain string (the presence searches) or an
object with string values (the call-site searches). -/
inductive SearchVal where
  | str (s : String)
  | dict (entries : List (String × String))
deriving DecidableEq

/-- Python `key in obj`: a key test on a dict, a substring test on a str. -/
def svContains (obj : SearchVal) (key : String) : Bool :=
  match obj with
  | .str s => pyIn key s
  | .dict entries => entries.any (fun kv => kv.1 == key)

/-- Python `obj[key]`: dict lookup (`KeyError` when absent); subscripting a
str with a str raises `TypeError`. -/
def svSubscript (obj : SearchVal) (key : String) : Except PyErr String :=
  match obj with
  | .str _ => .error (.typeError "string indices must be integers")
  | .dict entries =>
      match entries.find? (fun kv => kv.1 == key) with
      | some kv => .ok kv.2
      | none => .error (.keyError key)

/-- Python `input.split(' OR ') if ' OR ' in input else [input]`. -/
def pySplitOR (input : String) : List String :=
  if pyIn " OR " input then pySplit input " OR " else [input]

/-- The returnable items accumulated in `self.current_returns`: a list of
single-key dicts, modelled as (identifier, value) pairs.  A dict without the
expected return type produces an empty dict, which carries no keys and is
dropped (it has no effect in `fn_convert_returns_to_links`). -/
abbrev Returns := List (String × String)


/-- Ambient per-application evaluation state of the search engine: the
Androguard index plus the process set-order oracles and the
`keep_user_interaction` setting of the `AnalysisUtils` helper. -/
structure SearchCtx where
  dex : Dex
  reify : List String → List String
  reifyM : List PyMethod → List PyMethod
  keep : PyBoolOrStr

/-- Fuel that bounds the subclass/superclass recursion depth; one level per
internal class always suffices on an acyclic hierarchy. -/
def subsFuel (dex : Dex) : Nat :=
  dex.classes.length

/-- Branch bodies of the CodeSearch `AnalysisUtils.fn_get_linked_items` sub-part dispatch
(lines 278-298): build one output item per linked item, cutting the string
down to the class part when the search is class-scoped. -/
def CodeSearch.linkedOutputs (linked_items : List String)
    (link_subpart remaining_string search_class_or_method : String) :
    List String :=
  if link_subpart == "" then
    linked_items.foldl (fun output_items linked_item =>
      let return_string := linked_item ++ remaining_string
      let return_string :=
        if search_class_or_method == "<class>" then splitHead return_string "->"
        else return_string
      output_items ++ [return_string]) []
  else if link_subpart == "<class>" then
    linked_items.foldl (fun output_items linked_item =>
      let class_part_only := splitHead linked_item "->"
      let return_string := class_part_only ++ remaining_string
      let return_string :=
        if search_class_or_method == "<class>" then splitHead return_string "->"
        else return_string
      output_items ++ [return_string]) []
  else if link_subpart == "<method>" then
    linked_items.foldl (fun output_items linked_item =>
      if !(pyIn "->" linked_item) then output_items
      else
        let return_string := linked_item ++ remaining_string
        let return_string :=
          if search_class_or_method == "<class>" then splitHead return_string "->"
          else return_string
        output_items ++ [return_string]) []
  else []

/-- Source `code_analyser_search.py AnalysisUtils.fn_get_linked_items` (the CodeSearch
method, distinct from the AnalysisUtils function of the same name): resolve
a link reference, optionally selecting a sub-part, and reify the final
`list(set(...))` through the oracle.  A `]` without `[` raises `IndexError`. -/
def CodeSearch.fn_get_linked_items (current_links : Links)
    (reify : List String → List String) (string : String)
    (search_class_or_method : String) : Except PyErr (List String) := do
  let (link_name, link_subpart, remaining_string) ←
    if !(pyIn "]" string) then
      Except.ok (string, "", "")
    else do
      let split_for_link := pySplit string "]"
      let remaining_string ← pyIdx1 split_for_link
      let second_split := pySplit (split_for_link.headD "") "["
      let sub ← pyIdx1 second_split
      Except.ok (second_split.headD "", pyReplace sub " " "", remaining_string)
  let linked_items := AnalysisUtils.fn_get_linked_items current_links link_name
  Except.ok (reify (CodeSearch.linkedOutputs linked_items link_subpart
    remaining_string search_class_or_method))

/-- Loop shared verbatim by the CLASS and METHOD arms of
`fn_identify_search_items`: literals pass through (appended unconditionally),
link references are resolved and their items appended without duplicates. -/
def CodeSearch.identifyCollect (current_links : Links)
    (reify : List String → List String) (search_class_or_method : String) :
    List String → List String → Except PyErr (List String)
  | [], all_items => .ok all_items
  | one_item :: rest, all_items => do
      let is_link ← pyFirstCharIs one_item '@'
      if is_link then do
        let linked ← CodeSearch.fn_get_linked_items current_links reify
          one_item search_class_or_method
        let all_items := linked.foldl (fun acc linked_item =>
          if linked_item ∈ acc then acc else acc ++ [linked_item]) all_items
        CodeSearch.identifyCollect current_links reify search_class_or_method
          rest all_items
      else
        CodeSearch.identifyCollect current_links reify search_class_or_method
          rest (all_items ++ [one_item])

/-- Source `fn_identify_search_items`: strip an optional scope prefix, split
on `OR`, then resolve link references (STRING candidates pass through). -/
def CodeSearch.fn_identify_search_items (current_links : Links)
    (reify : List String → List String) (type input : String) :
    Except PyErr (List String) :=
  let search_class_or_method :=
    if pyIn ":" input then splitHead input ":"
    else if pyIn "->" input then "<method>"
    else "<class>"
  let input :=
    if pyIn ":" input then input.drop ((splitHead input ":").length + 1)
    else input
  if type == "STRING" then
    .ok (pySplitOR input)
  else if type == "CLASS" then
    CodeSearch.identifyCollect current_links reify search_class_or_method
      (pySplitOR input) []
  else if type == "METHOD" then
    CodeSearch.identifyCollect current_links reify search_class_or_method
      (pySplitOR input) []
  else
    .ok []

/-- Source `fn_search_for_presence_of_string`: accumulates the string hits,
but `fn_get_strings` raises `NameError` on every call, so any non-empty
candidate list errors out; an empty candidate list yields `len([]) == 0`,
i.e. an unsatisfied result. -/
def CodeSearch.fn_search_for_presence_of_string (dex : Dex) :
    List String → List String → Except PyErr Bool
  | all_strings, [] => .ok (all_strings.length != 0)
  | all_strings, search_string :: rest =>
      match fn_get_strings dex (pyStrip search_string) with
      | .error e => .error e
      | .ok string_objs =>
          CodeSearch.fn_search_for_presence_of_string dex
            (all_strings ++ string_objs) rest

/-- Source `fn_search_for_presence_of_method`: the accumulator `all_methods`
is never initialised in the source, so the first loop iteration raises
`NameError` right after the first candidate parses (a malformed candidate
raises `JandroidException` first), and the final `len(all_methods)` raises
for an empty candidate list. -/
def CodeSearch.fn_search_for_presence_of_method (methods_to_search : List String) :
    Except PyErr Bool :=
  match methods_to_search with
  | [] => .error (.nameError "all_methods")
  | method_to_search :: _ =>
      match fn_get_class_method_desc_from_string method_to_search with
      | .error e => .error e
      | .ok _ => .error (.nameError "all_methods")

/-- Source `fn_search_for_presence_of_class`: the accumulator `all_classes`
is never initialised in the source; evaluating it raises `NameError` on the
first loop iteration (the subclass lookup before it cannot raise) or at the
final length test when the candidate list is empty. -/
def CodeSearch.fn_search_for_presence_of_class (classes_to_search : List String) :
    Except PyErr Bool :=
  .error (.nameError "all_classes")

/-- Source `fn_process_returnable_item`: bind the class or full method
signature of a call site under the identifier.  An unrecognised return type
appends an empty dict, which carries no key and is dropped. -/
def CodeSearch.fn_process_returnable_item (return_candidate : PyMethod)
    (return_type element_name : String) (current_returns : Returns) :
    Returns :=
  let parts := fn_get_class_method_desc_from_method return_candidate
  if return_type == "<class>" then
    current_returns ++ [(element_name, parts.1)]
  else if return_type == "<method>" then
    current_returns ++ [(element_name, parts.1 ++ "->" ++ parts.2.1 ++ parts.2.2)]
  else
    current_returns

/-- Per-element loop of the CodeSearch `fn_analyse_returns`. -/
def CodeSearch.analyseReturnElements :
    List String → List PyMethod → Returns → Except PyErr Returns
  | [], _, current_returns => .ok current_returns
  | return_element :: rest, return_candidates, current_returns => do
      let returnable_element_name ← pyIdx1 (pySplit return_element " AS ")
      let return_type := splitHead return_element " AS "
      CodeSearch.analyseReturnElements rest return_candidates
        (return_candidates.foldl (fun acc return_candidate =>
          CodeSearch.fn_process_returnable_item return_candidate return_type
            returnable_element_name acc) current_returns)

/-- Source `code_analyser_search.py fn_analyse_returns`: the RETURN value of
a search object is a string by the validated template shape (the source's
list branch handles list-typed JSON, which `SearchVal` cannot hold);
comma-separated elements are processed in order against every candidate. -/
def CodeSearch.fn_analyse_returns (returnables : String)
    (return_candidates : List PyMethod) (current_returns : Returns) :
    Except PyErr Returns :=
  let returnable_elements :=
    if pyIn "," returnables then pySplit returnables "," else [returnables]
  CodeSearch.analyseReturnElements returnable_elements return_candidates
    current_returns

/-- Source `fn_check_callers_against_expectation`: class scope compares the
class parts (with a trailing-`*` prefix wildcard); method scope compares
class, method and descriptor; the negation flag inverts the outcome. -/
def CodeSearch.fn_check_callers_against_expectation (method : PyMethod)
    (location_value location_type : String) (exclude_match : Bool) :
    Except PyErr Bool :=
  let avail := fn_get_class_method_desc_from_method method
  match fn_get_class_method_desc_from_string location_value with
  | .error e => .error e
  | .ok expected =>
      let is_satisfied :=
        if location_type == "<class>" then
          if pyEndsWith expected.1 "*" then
            pyStartsWith avail.1 (pyReplace expected.1 "*" "")
          else
            avail.1 == expected.1
        else if location_type == "<method>" then
          avail.1 == expected.1 && avail.2.1 == expected.2.1
            && avail.2.2 == expected.2.2
        else
          false
      .ok (if exclude_match then !is_satisfied else is_satisfied)

/-- Inner loop of `fn_get_methods_satisfying_location_reqs`: one input
method is appended once per location value it satisfies. -/
def CodeSearch.checkValues (input_method : PyMethod) (location_type : String)
    (location_exclusion : Bool) :
    List String → Except PyErr (List PyMethod)
  | [] => .ok []
  | location_value :: rest => do
      let is_satisfied ← CodeSearch.fn_check_callers_against_expectation
        input_method location_value location_type location_exclusion
      let tail_matches ← CodeSearch.checkValues input_method location_type
        location_exclusion rest
      Except.ok (if is_satisfied then input_method :: tail_matches
        else tail_matches)

/-- Outer loop of `fn_get_methods_satisfying_location_reqs`. -/
def CodeSearch.checkMethods (location_values : List String)
    (location_type : String) (location_exclusion : Bool) :
    List PyMethod → Except PyErr (List PyMethod)
  | [] => .ok []
  | input_method :: rest => do
      let hits ← CodeSearch.checkValues input_method location_type
        location_exclusion location_values
      let tail_methods ← CodeSearch.checkMethods location_values location_type
        location_exclusion rest
      Except.ok (hits ++ tail_methods)

/-- Source `fn_get_methods_satisfying_location_reqs`: parse the optional
`NOT ` flag and `<scope>:` prefix, expand a link reference into an OR-set of
location values, and keep the input methods that satisfy some value. -/
def CodeSearch.fn_get_methods_satisfying_location_reqs (current_links : Links)
    (methods : List PyMethod) (location : String) :
    Except PyErr (List PyMethod) := do
  let location_exclusion := pyIn "NOT " location
  let location := pyReplace location "NOT " ""
  let (location_type, location_value) :=
    if pyIn ":" location then
      (splitHead location ":", ((pySplit location ":").drop 1).headD "")
    else
      ("<class>", location)
  let is_link ← pyFirstCharIs location_value '@'
  let location_values :=
    if is_link then AnalysisUtils.fn_get_linked_items current_links location_value
    else [location_value]
  CodeSearch.checkMethods location_values location_type location_exclusion
    methods

/-- Source `fn_process_search_location_and_returns`: without a
`SEARCHLOCATION` the search is satisfied outright; with one, it is satisfied
iff the filtered set is non-empty, in which case the call-site list is
narrowed to the filtered set.  `fn_analyse_returns` then runs on whatever
list is current — note that it runs even when the location filter left the
result unsatisfied, and in that case on the unfiltered call sites. -/
def CodeSearch.fn_process_search_location_and_returns (current_links : Links)
    (search_object : SearchVal) (calling_methods : List PyMethod)
    (current_returns : Returns) : Except PyErr (Bool × Returns) := do
  let (bool_search_satisfied, calling_methods) ←
    if svContains search_object "SEARCHLOCATION" then do
      let location ← svSubscript search_object "SEARCHLOCATION"
      let filtered ← CodeSearch.fn_get_methods_satisfying_location_reqs
        current_links calling_methods location
      Except.ok (if filtered.length > 0 then (true, filtered)
        else (false, calling_methods))
    else
      Except.ok (true, calling_methods)
  if !(svContains search_object "RETURN") then
    Except.ok (bool_search_satisfied, current_returns)
  else do
    let returnables ← svSubscript search_object "RETURN"
    let updated ← CodeSearch.fn_analyse_returns returnables calling_methods
      current_returns
    Except.ok (bool_search_satisfied, updated)

/-- Source `fn_search_for_calls_to_method`: per candidate, widen the target
class across its subclasses, gather callers, and run the location/return
processing; the search is satisfied when some candidate's processing is. -/
def CodeSearch.fn_search_for_calls_to_method (ctx : SearchCtx)
    (current_links : Links) (search_object : SearchVal) :
    List String → Bool → Returns → Except PyErr (Bool × Returns)
  | [], bool_search_satisfied, current_returns =>
      .ok (bool_search_satisfied, current_returns)
  | method_to_search :: rest, bool_search_satisfied, current_returns => do
      let parts ← fn_get_class_method_desc_from_string method_to_search
      let all_classes := parts.1 ::
        fn_find_subclasses ctx.dex ctx.reify (subsFuel ctx.dex) parts.1
      let calling_methods := all_classes.foldl (fun acc one_class =>
        acc ++ fn_get_calls_to_method ctx.dex ctx.keep one_class parts.2.1
          parts.2.2) []
      if calling_methods.length ≤ 0 then
        CodeSearch.fn_search_for_calls_to_method ctx current_links
          search_object rest bool_search_satisfied current_returns
      else do
        let (bool_one, updated) ←
          CodeSearch.fn_process_search_location_and_returns current_links
            search_object calling_methods current_returns
        CodeSearch.fn_search_for_calls_to_method ctx current_links
          search_object rest (if bool_one then true else bool_search_satisfied)
          updated

/-- Source `fn_search_for_calls_to_string`: the string lookup raises on its
first candidate (see `fn_get_strings`). -/
def CodeSearch.fn_search_for_calls_to_string (ctx : SearchCtx)
    (current_links : Links) (search_object : SearchVal) :
    List String → Bool → Returns → Except PyErr (Bool × Returns)
  | [], bool_search_satisfied, current_returns =>
      .ok (bool_search_satisfied, current_returns)
  | search_string :: rest, bool_search_satisfied, current_returns => do
      let calling_methods ← fn_get_calls_to_string ctx.dex search_string
      if calling_methods.length == 0 then
        CodeSearch.fn_search_for_calls_to_string ctx current_links
          search_object rest bool_search_satisfied current_returns
      else do
        let (bool_one, updated) ←
          CodeSearch.fn_process_search_location_and_returns current_links
            search_object calling_methods current_returns
        CodeSearch.fn_search_for_calls_to_string ctx current_links
          search_object rest (if bool_one then true else bool_search_satisfied)
          updated

/-- Source `fn_search_for_calls_to_class`. -/
def CodeSearch.fn_search_for_calls_to_class (ctx : SearchCtx)
    (current_links : Links) (search_object : SearchVal) :
    List String → Bool → Returns → Except PyErr (Bool × Returns)
  | [], bool_search_satisfied, current_returns =>
      .ok (bool_search_satisfied, current_returns)
  | class_to_search :: rest, bool_search_satisfied, current_returns => do
      let classes_inc_sub := class_to_search ::
        fn_find_subclasses ctx.dex ctx.reify (subsFuel ctx.dex) class_to_search
      let calling_methods := classes_inc_sub.foldl (fun acc one_class =>
        acc ++ fn_get_calls_to_class ctx.dex ctx.keep ctx.reifyM one_class) []
      if calling_methods.length == 0 then
        CodeSearch.fn_search_for_calls_to_class ctx current_links
          search_object rest bool_search_satisfied current_returns
      else do
        let (bool_one, updated) ←
          CodeSearch.fn_process_search_location_and_returns current_links
            search_object calling_methods current_returns
        CodeSearch.fn_search_for_calls_to_class ctx current_links
          search_object rest (if bool_one then true else bool_search_satisfied)
          updated

/-- Source `fn_determine_search_type`: dispatch on the search-type tag; the
candidate list is computed before the selected function runs.  An unknown
tag leaves `fn_to_execute` as `None`, and calling `None` raises `TypeError`. -/
def CodeSearch.fn_determine_search_type (ctx : SearchCtx)
    (current_links : Links) (search_type : String) (search_object : SearchVal)
    (current_returns : Returns) : Except PyErr (Bool × Returns) :=
  if search_type == "SEARCHFORSTRING" then do
    let raw ← svSubscript search_object "STRING"
    let items ← CodeSearch.fn_identify_search_items current_links ctx.reify
      "STRING" raw
    let b ← CodeSearch.fn_search_for_presence_of_string ctx.dex [] items
    Except.ok (b, current_returns)
  else if search_type == "SEARCHFORCALLTOSTRING" then do
    let raw ← svSubscript search_object "STRING"
    let items ← CodeSearch.fn_identify_search_items current_links ctx.reify
      "STRING" raw
    CodeSearch.fn_search_for_calls_to_string ctx current_links search_object
      items false current_returns
  else if search_type == "SEARCHFORMETHOD" then do
    let raw ← svSubscript search_object "METHOD"
    let items ← CodeSearch.fn_identify_search_items current_links ctx.reify
      "METHOD" raw
    let b ← CodeSearch.fn_search_for_presence_of_method items
    Except.ok (b, current_returns)
  else if search_type == "SEARCHFORCALLTOMETHOD" then do
    let raw ← svSubscript search_object "METHOD"
    let items ← CodeSearch.fn_identify_search_items current_links ctx.reify
      "METHOD" raw
    CodeSearch.fn_search_for_calls_to_method ctx current_links search_object
      items false current_returns
  else if search_type == "SEARCHFORCLASS" then do
    let raw ← svSubscript search_object "CLASS"
    let items ← CodeSearch.fn_identify_search_items current_links ctx.reify
      "CLASS" raw
    let b ← CodeSearch.fn_search_for_presence_of_class items
    Except.ok (b, current_returns)
  else if search_type == "SEARCHFORCALLTOCLASS" then do
    let raw ← svSubscript search_object "CLASS"
    let items ← CodeSearch.fn_identify_search_items current_links ctx.reify
      "CLASS" raw
    CodeSearch.fn_search_for_calls_to_class ctx current_links search_object
      items false current_returns
  else
    .error (.typeError "NoneType object is not callable")

/-- A SEARCH rule set: a single rule object or a list of rule objects. -/
inductive SearchTemplate where
  | dict (d : List (String × SearchVal))
  | list (l : List (List (String × SearchVal)))
deriving DecidableEq

/-- Counting loop of `fn_process_individual_search_item` over the sub-keys of
a rule object: satisfied iff every sub-search is satisfied. -/
def CodeSearch.searchDictLoop (ctx : SearchCtx) (current_links : Links) :
    List (String × SearchVal) → Nat → Nat → Returns →
      Except PyErr (Bool × Returns)
  | [], total, satisfied, current_returns =>
      .ok (total == satisfied, current_returns)
  | (search_item, search_value) :: rest, total, satisfied, current_returns => do
      let (b, updated) ← CodeSearch.fn_determine_search_type ctx current_links
        search_item search_value current_returns
      CodeSearch.searchDictLoop ctx current_links rest (total + 1)
        (satisfied + if b then 1 else 0) updated

/-- Source `fn_process_individual_search_item`: the loop iterates over
`self.search_template`, NOT over the `search_dictionary` argument.  When the
template is a dict the two coincide and the sub-keys are AND-combined; when
the template is a non-empty list, the first iteration indexes the list with a
dict element and raises `TypeError`. -/
def CodeSearch.fn_process_individual_search_item (ctx : SearchCtx)
    (current_links : Links) (search_template : SearchTemplate)
    (search_dictionary : List (String × SearchVal)) (current_returns : Returns) :
    Except PyErr (Bool × Returns) :=
  match search_template with
  | .dict d => CodeSearch.searchDictLoop ctx current_links d 0 0 current_returns
  | .list [] => .ok (true, current_returns)
  | .list (_ :: _) =>
      .error (.typeError "list indices must be integers or slices, not dict")

/-- Counting loop of `fn_perform_code_search` over a list-shaped template. -/
def CodeSearch.searchListLoop (ctx : SearchCtx) (current_links : Links)
    (search_template : SearchTemplate) :
    List (List (String × SearchVal)) → Nat → Nat → Returns →
      Except PyErr (Bool × Returns)
  | [], total, satisfied, current_returns =>
      .ok (total == satisfied, current_returns)
  | search_item :: rest, total, satisfied, current_returns => do
      let (b, updated) ← CodeSearch.fn_process_individual_search_item ctx
        current_links search_template search_item current_returns
      CodeSearch.searchListLoop ctx current_links search_template rest
        (total + 1) (satisfied + if b then 1 else 0) updated

/-- Source `fn_perform_code_search`: reset the returns accumulator (so any
`prior_returns` left on the instance is discarded), evaluate the template
(dict → single rule object, list → AND over rule objects), and on success
convert the accumulated returns into links. -/
def CodeSearch.fn_perform_code_search (ctx : SearchCtx)
    (search_template : SearchTemplate) (links : Links)
    (prior_returns : Returns) : Except PyErr (Bool × Links) := do
  let current_returns : Returns := []
  let (bool_satisfied, final_returns) ←
    (match search_template with
     | .dict d =>
         CodeSearch.fn_process_individual_search_item ctx links
           search_template d current_returns
     | .list l =>
         CodeSearch.searchListLoop ctx links search_template l 0 0
           current_returns)
  if bool_satisfied then do
    let links2 ← fn_convert_returns_to_links final_returns links
    Except.ok (true, links2)
  else
    Except.ok (false, links)

/-- Stop-condition values of the tracer (`'True'` / `'False'` / `'Maybe'`). -/
inductive StopCond where
  | condTrue
  | condFalse
  | condMaybe
deriving DecidableEq

/-- Per-invocation state of the Basic trace engine: the visited-signature
set (a Python set, modelled as a list in insertion order — only membership
matters) and the accumulated output chains. -/
structure TState where
  checked_methods : List String
  output_chains : List String
deriving DecidableEq

/-- A trace run either produces a state, propagates a Python exception, or —
an artifact of the embedding only — runs out of fuel.  The termination
theorem shows sufficient fuel always exists. -/
inductive TErr where
  | py (e : PyErr)
  | fuelExhausted
deriving DecidableEq

/-- Lift a Python-level failure into the trace result type. -/
def liftPy : Except PyErr α → Except TErr α
  | .error e => .error (.py e)
  | .ok a => .ok a

/-- Per-trace evaluation context: the Androguard index, oracle functions and
the instance variables the CodeTrace object holds during one
`fn_trace_through_code` run. -/
structure TraceCtx where
  dex : Dex
  reify : List String → List String
  reifyM : List PyMethod → List PyMethod
  keep : PyBoolOrStr
  trace_direction : String
  from_class_method : String
  to_class_method : String
  trace_to_list : List String
  hardcoded_traceto : Bool
  trace_length_max : Nat

/-- Source `special_case_object_list_reverse`: for method `doInBackground`,
a class whose superclass chain reaches `Landroid/os/AsyncTask;` is traced
through the two `execute` descriptors instead. -/
def specialCaseReverseLookup (superclass : String) : Option (List String) :=
  if superclass == "Landroid/os/AsyncTask;" then
    some ["execute([Ljava/lang/Object;)Landroid/os/AsyncTask;",
          "execute(Ljava/lang/Runnable;)"]
  else none

/-- Source `special_case_object_list_forward`. -/
def special_case_object_list_forward (method_descriptor : String) :
    Option String :=
  if method_descriptor == "execute([Ljava/lang/Object;)Landroid/os/AsyncTask;"
    then some "doInBackground"
  else if method_descriptor == "execute(Ljava/lang/Runnable;)V" then
    some "doInBackground"
  else none

/-- Loop of `fn_handle_special_case_reverse`: first superclass (stripped)
with a special-case entry wins; no match falls through to Python `None`. -/
def CodeTrace.specialRevFind : List String → Option (List String)
  | [] => none
  | superclass :: rest =>
      match specialCaseReverseLookup (pyStrip superclass) with
      | some revised => some revised
      | none => CodeTrace.specialRevFind rest

/-- Source `fn_handle_special_case_reverse`. -/
def CodeTrace.fn_handle_special_case_reverse (ctx : TraceCtx)
    (class_part : String) : Option (List String) :=
  CodeTrace.specialRevFind
    (fn_find_superclasses ctx.dex ctx.reify (subsFuel ctx.dex) class_part)

/-- Source `fn_check_stop_condition`: exact membership in the trace-to list
sets `True`; for a hardcoded single end point, a class wildcard matches by
substring, and a method+descriptor-only match sets `Maybe`. -/
def CodeTrace.fn_check_stop_condition (ctx : TraceCtx) (check_value : String) :
    StopCond :=
  let check_value :=
    if ctx.to_class_method == "<class>" then splitHead check_value "->"
    else check_value
  if check_value ∈ ctx.trace_to_list then .condTrue
  else if ctx.hardcoded_traceto == false then .condFalse
  else if ctx.trace_to_list.length > 1 then .condFalse
  else
    let trace_to_item := ctx.trace_to_list.headD ""
    if ctx.to_class_method == "<class>" && pyIn "*" trace_to_item then
      (if pyIn (pyReplace trace_to_item "*" "") check_value then .condTrue
       else .condFalse)
    else if !(pyIn "->" trace_to_item) then .condFalse
    else if !(pyIn "->" check_value) then .condFalse
    else if !(pyIn "(" trace_to_item) then .condFalse
    else if !(pyIn "(" check_value) then .condFalse
    else if ((pySplit trace_to_item "->").drop 1).headD ""
        == ((pySplit check_value "->").drop 1).headD "" then .condMaybe
    else .condFalse

/-- Python chain concatenation used by `fn_analyse_trace_point`. -/
def CodeTrace.extendChain (trace_chain compound_name : String) : String :=
  if trace_chain == "" then compound_name
  else trace_chain ++ "," ++ compound_name

/-- Shape of the continuation into the next trace level
(`fn_analyse_trace_point` at the remaining fuel). -/
abbrev TraceNext :=
  TState → String → String → String → String → Except TErr TState

/-- Innermost loop of `fn_trace_reverse` over the revised method
descriptors: re-split each into method and descriptor parts (a descriptor
without `(` would raise `IndexError`) and analyse the trace point. -/
def CodeTrace.revMds (next : TraceNext) :
    TState → String → List String → String → Except TErr TState
  | st, _, [], _ => .ok st
  | st, class_part, method_descriptor :: rest, trace_chain => do
      let method_part := splitHead method_descriptor "("
      let dtail ← liftPy (pyIdx1 (pySplit method_descriptor "("))
      let st2 ← next st class_part method_part ("(" ++ dtail) trace_chain
      CodeTrace.revMds next st2 class_part rest trace_chain

/-- Middle loop of `fn_trace_reverse` over the calling class and its
subclasses. -/
def CodeTrace.revClassParts (next : TraceNext) :
    TState → List String → List String → String → Except TErr TState
  | st, [], _, _ => .ok st
  | st, class_part :: rest, method_descriptors, trace_chain => do
      let st2 ← CodeTrace.revMds next st class_part method_descriptors
        trace_chain
      CodeTrace.revClassParts next st2 rest method_descriptors trace_chain

/-- Outer loop of `fn_trace_reverse` over the starting points (the callers):
split each caller into parts, widen over the caller's subclasses, apply the
`doInBackground` special case (whose fall-through `None` makes the following
iteration raise `TypeError`), and recurse into each combination. -/
def CodeTrace.revPoints (ctx : TraceCtx) (next : TraceNext) :
    TState → List PyMethod → String → Except TErr TState
  | st, [], _ => .ok st
  | st, starting_point :: rest, trace_chain => do
      let parts := fn_get_class_method_desc_from_method starting_point
      let class_parts := parts.1 ::
        fn_find_subclasses ctx.dex ctx.reify (subsFuel ctx.dex) parts.1
      let method_descriptors ←
        (if parts.2.1 == "doInBackground" then
          match CodeTrace.fn_handle_special_case_reverse ctx parts.1 with
          | some revised => Except.ok revised
          | none => Except.error (.py (.typeError "NoneType is not iterable"))
        else
          Except.ok [parts.2.1 ++ parts.2.2])
      let st2 ← CodeTrace.revClassParts next st class_parts
        method_descriptors trace_chain
      CodeTrace.revPoints ctx next st2 rest trace_chain

/-- Source `fn_trace_reverse`: gather the callers of the current signature
(widened over subclasses of the called class), then walk each one. -/
def CodeTrace.fn_trace_reverse (ctx : TraceCtx) (next : TraceNext)
    (st : TState) (class_part method_part desc_part trace_chain : String) :
    Except TErr TState :=
  let starting_points :=
    fn_get_calls_to_method ctx.dex ctx.keep class_part method_part desc_part
  let all_subclasses :=
    fn_find_subclasses ctx.dex ctx.reify (subsFuel ctx.dex) class_part
  let starting_points := all_subclasses.foldl (fun acc subclass =>
    acc ++ fn_get_calls_to_method ctx.dex ctx.keep subclass method_part
      desc_part) starting_points
  CodeTrace.revPoints ctx next st starting_points trace_chain

/-- Loop of `fn_trace_forward` over the callees, with the forward
special-case substitution. -/
def CodeTrace.fwdPoints (next : TraceNext) :
    TState → List PyMethod → String → Except TErr TState
  | st, [], _ => .ok st
  | st, starting_point :: rest, trace_chain => do
      let parts := fn_get_class_method_desc_from_method starting_point
      let method_descriptor := parts.2.1 ++ parts.2.2
      let (method_part, desc_part) :=
        match special_case_object_list_forward method_descriptor with
        | some substituted => (substituted, ".")
        | none => (parts.2.1, parts.2.2)
      let st2 ← next st parts.1 method_part desc_part trace_chain
      CodeTrace.fwdPoints next st2 rest trace_chain

/-- Source `fn_trace_forward`: gather the callees of the current signature
and walk each one. -/
def CodeTrace.fn_trace_forward (ctx : TraceCtx) (next : TraceNext)
    (st : TState) (class_part method_part desc_part trace_chain : String) :
    Except TErr TState :=
  let starting_points := fn_get_calls_from_method ctx.dex ctx.keep ctx.reifyM
    false class_part method_part desc_part
  CodeTrace.fwdPoints next st starting_points trace_chain

/-- Source `fn_analyse_trace_point`: skip a signature already visited in
this traversal, otherwise mark it visited and check the stop condition.  On
`True` the extended chain is recorded and the branch stops; on `Maybe` the
chain is extended with a marked hop, recorded, and traversal continues; on
`False` traversal continues with the chain unchanged.  Descent only happens
while the chain has at most `trace_length_max` hops. -/
def CodeTrace.fn_analyse_trace_point (ctx : TraceCtx) :
    Nat → TState → String → String → String → String → Except TErr TState
  | 0, _, _, _, _, _ => .error .fuelExhausted
  | fuel + 1, st, class_part, method_part, desc_part, trace_chain =>
      let compound_name := class_part ++ "->" ++ method_part ++ desc_part
      if compound_name ∈ st.checked_methods then .ok st
      else
        let st : TState :=
          ⟨st.checked_methods ++ [compound_name], st.output_chains⟩
        match CodeTrace.fn_check_stop_condition ctx compound_name with
        | .condTrue =>
            let trace_chain := CodeTrace.extendChain trace_chain compound_name
            if trace_chain ∈ st.output_chains then .ok st
            else .ok ⟨st.checked_methods, st.output_chains ++ [trace_chain]⟩
        | .condMaybe =>
            let compound_name := "|MAYBE|" ++ compound_name
            let trace_chain := CodeTrace.extendChain trace_chain compound_name
            if trace_chain ∈ st.output_chains then .ok st
            else
              let st : TState :=
                ⟨st.checked_methods, st.output_chains ++ [trace_chain]⟩
              if (pySplit trace_chain ",").length > ctx.trace_length_max then
                .ok st
              else if ctx.trace_direction == "FORWARD" then
                CodeTrace.fn_trace_forward ctx
                  (fun st2 cp mp dp ch =>
                    CodeTrace.fn_analyse_trace_point ctx fuel st2 cp mp dp ch)
                  st class_part method_part desc_part trace_chain
              else
                CodeTrace.fn_trace_reverse ctx
                  (fun st2 cp mp dp ch =>
                    CodeTrace.fn_analyse_trace_point ctx fuel st2 cp mp dp ch)
                  st class_part method_part desc_part trace_chain
        | .condFalse =>
            if (pySplit trace_chain ",").length > ctx.trace_length_max then
              .ok st
            else if ctx.trace_direction == "FORWARD" then
              CodeTrace.fn_trace_forward ctx
                (fun st2 cp mp dp ch =>
                  CodeTrace.fn_analyse_trace_point ctx fuel st2 cp mp dp ch)
                st class_part method_part desc_part trace_chain
            else
              CodeTrace.fn_trace_reverse ctx
                (fun st2 cp mp dp ch =>
                  CodeTrace.fn_analyse_trace_point ctx fuel st2 cp mp dp ch)
                st class_part method_part desc_part trace_chain

/-- Source `fn_determine_class_method_desc`: split a trace start point and
overwrite method/descriptor with the "don't care" `"."` for class scope. -/
def CodeTrace.fn_determine_class_method_desc (trace_from trace_from_type : String) :
    Except PyErr (String × String × String) :=
  match fn_get_class_method_desc_from_string trace_from with
  | .error e => .error e
  | .ok parts =>
      .ok (if trace_from_type == "<class>" then (parts.1, ".", ".") else parts)

/-- Source `fn_get_trace_type`: an explicit `scope:` prefix wins; otherwise
the scope is inferred from the presence of `->`. -/
def CodeTrace.fn_get_trace_type (string : String) : String × String :=
  if pyIn ":" string then
    (splitHead string ":", string.drop ((splitHead string ":").length + 1))
  else if pyIn "->" string then ("<method>", string)
  else ("<class>", string)

/-- Branch bodies of the `fn_get_trace_items` sub-part dispatch (lines
327-347); the same loop shape as `CodeSearch.linkedOutputs` but without the
final set reification. -/
def CodeTrace.linkedOutputs (linked_items : List String)
    (link_subpart remaining_string trace_type : String) : List String :=
  if link_subpart == "" then
    linked_items.foldl (fun output_items linked_item =>
      let return_string := linked_item ++ remaining_string
      let return_string :=
        if trace_type == "<class>" then splitHead return_string "->"
        else return_string
      output_items ++ [return_string]) []
  else if link_subpart == "<class>" then
    linked_items.foldl (fun output_items linked_item =>
      let class_part_only := splitHead linked_item "->"
      let return_string := class_part_only ++ remaining_string
      let return_string :=
        if trace_type == "<class>" then splitHead return_string "->"
        else return_string
      output_items ++ [return_string]) []
  else if link_subpart == "<method>" then
    linked_items.foldl (fun output_items linked_item =>
      if !(pyIn "->" linked_item) then output_items
      else
        let return_string := linked_item ++ remaining_string
        let return_string :=
          if trace_type == "<class>" then splitHead return_string "->"
          else return_string
        output_items ++ [return_string]) []
  else []

/-- Source `fn_get_trace_items`: resolve the start/end point string into the
candidate list, setting `hardcoded_traceto` to `False` for a link reference
and `True` for a literal (the flag is returned as the second component). -/
def CodeTrace.fn_get_trace_items (current_links : Links)
    (string trace_type : String) : Except PyErr (List String × Bool) := do
  let is_link ← pyFirstCharIs string '@'
  if is_link then do
    let (link_name, link_subpart, remaining_string) ←
      if !(pyIn "]" string) then
        Except.ok (string, "", "")
      else do
        let split_for_link := pySplit string "]"
        let remaining_string ← pyIdx1 split_for_link
        let second_split := pySplit (split_for_link.headD "") "["
        let sub ← pyIdx1 second_split
        Except.ok (second_split.headD "", pyReplace sub " " "", remaining_string)
    let linked_items := AnalysisUtils.fn_get_linked_items current_links link_name
    Except.ok (CodeTrace.linkedOutputs linked_items link_subpart
      remaining_string trace_type, false)
  else
    let string := if trace_type == "<class>" then splitHead string "->"
      else string
    Except.ok ([string], true)

/-- Loop of `fn_trace_handler` over the from-candidates: each candidate gets
a fresh visited set, while the output chains accumulate across candidates. -/
def CodeTrace.handlerLoop (ctx : TraceCtx) (fuel : Nat) :
    List String → List String → Except TErr (List String)
  | [], output_chains => .ok output_chains
  | trace_from :: rest, output_chains => do
      let parts ← liftPy (CodeTrace.fn_determine_class_method_desc trace_from
        ctx.from_class_method)
      let st0 : TState := ⟨[], output_chains⟩
      let st ←
        (if ctx.trace_direction == "REVERSE" then
          CodeTrace.fn_trace_reverse ctx
            (fun st2 cp mp dp ch =>
              CodeTrace.fn_analyse_trace_point ctx fuel st2 cp mp dp ch)
            st0 parts.1 parts.2.1 parts.2.2 trace_from
        else
          CodeTrace.fn_trace_forward ctx
            (fun st2 cp mp dp ch =>
              CodeTrace.fn_analyse_trace_point ctx fuel st2 cp mp dp ch)
            st0 parts.1 parts.2.1 parts.2.2 trace_from)
      CodeTrace.handlerLoop ctx fuel rest st.output_chains

/-- Source `fn_trace_handler`: run one traversal per from-candidate; the
trace is satisfied iff the accumulated output-chain list is non-empty. -/
def CodeTrace.fn_trace_handler (ctx : TraceCtx) (fuel : Nat)
    (output_chains : List String) (trace_from_list : List String) :
    Except TErr (Bool × List String) := do
  let chains ← CodeTrace.handlerLoop ctx fuel trace_from_list output_chains
  Except.ok (chains != [], chains)

/-- Source `fn_trace_through_code`: fix the from/to scopes, resolve both
ends (`hardcoded_traceto` keeps the value set while resolving the TRACETO
side), fail when either end resolves to nothing, then run the handler. -/
def CodeTrace.fn_trace_through_code (dex : Dex)
    (reify : List String → List String)
    (reifyM : List PyMethod → List PyMethod) (keep : PyBoolOrStr)
    (trace_direction : String) (trace_length_max : Nat)
    (current_links : Links) (fuel : Nat) (output_chains : List String)
    (trace_from_string trace_to_string : String) :
    Except TErr (Bool × List String) := do
  let (from_class_method, trace_from_string) :=
    CodeTrace.fn_get_trace_type trace_from_string
  let (to_class_method, trace_to_string) :=
    CodeTrace.fn_get_trace_type trace_to_string
  let fromItems ← liftPy (CodeTrace.fn_get_trace_items current_links
    trace_from_string from_class_method)
  let toItems ← liftPy (CodeTrace.fn_get_trace_items current_links
    trace_to_string to_class_method)
  if fromItems.1 == [] || toItems.1 == [] then
    Except.ok (false, output_chains)
  else
    let ctx : TraceCtx :=
      ⟨dex, reify, reifyM, keep, trace_direction, from_class_method,
        to_class_method, toItems.1, toItems.2, trace_length_max⟩
    CodeTrace.fn_trace_handler ctx fuel output_chains fromItems.1

/-- One TRACE rule object, projected onto the keys the engine reads. -/
structure TraceDict where
  tracefrom : String
  traceto : String
  tracedirection : Option String
  tracelengthmax : Option Nat
  tracetype : Option String
  ret : Option String
deriving DecidableEq

/-- Source `fn_get_trace_parameters`: max length (template override or
default), direction (anything but `FORWARD` means `REVERSE`), and type
(default `BASIC`). -/
def CodeTrace.fn_get_trace_parameters (default_trace_length_max : Nat)
    (trace_template : TraceDict) : Nat × String × String :=
  (trace_template.tracelengthmax.getD default_trace_length_max,
   (match trace_template.tracedirection with
    | some d => if d == "FORWARD" then "FORWARD" else "REVERSE"
    | none => "REVERSE"),
   trace_template.tracetype.getD "BASIC")

/-- Source `fn_enumerate_trace_source_sinks`. -/
def CodeTrace.fn_enumerate_trace_source_sinks (trace_template : TraceDict) :
    List String × List String :=
  (pySplitOR trace_template.tracefrom, pySplitOR trace_template.traceto)

/-- Inner join of `fn_analyse_returns` over one chain's nodes. -/
def CodeTrace.chainJoin (chain : List String) : String :=
  chain.foldl (fun output_str chain_node =>
    let chain_node := pyStrip chain_node
    if output_str == "" then chain_node
    else output_str ++ "," ++ chain_node) ""

/-- Source `code_analyser_trace.py fn_analyse_returns`: bind every output
chain under the RETURN identifier, reversing chains first when the traversal
ran in `Reverse` direction (they are stored callee-to-caller). -/
def CodeTrace.fn_analyse_returns (trace_direction : String)
    (returnables : String) (output_chains : List String)
    (current_returns : Returns) : Except PyErr Returns := do
  let returnable_elements_name ← pyIdx1 (pySplit returnables " AS ")
  Except.ok (output_chains.foldl (fun acc chain_string =>
    let chain := pySplit chain_string ","
    let chain := if trace_direction == "REVERSE" then chain.reverse else chain
    acc ++ [(returnable_elements_name, CodeTrace.chainJoin chain)])
    current_returns)

/-- Pair loop of `fn_process_individual_trace_list_item`: one
`fn_trace_through_code` run per (from, to) combination. -/
def CodeTrace.tracePairsLoop (dex : Dex) (reify : List String → List String)
    (reifyM : List PyMethod → List PyMethod) (keep : PyBoolOrStr)
    (trace_direction : String) (trace_length_max : Nat)
    (current_links : Links) (fuel : Nat) :
    List (String × String) → Bool → List String →
      Except TErr (Bool × List String)
  | [], bool_satisfied, output_chains => .ok (bool_satisfied, output_chains)
  | (trace_from_string, trace_to_string) :: rest, bool_satisfied,
      output_chains => do
      let (bool_single, chains2) ← CodeTrace.fn_trace_through_code dex reify
        reifyM keep trace_direction trace_length_max current_links fuel
        output_chains trace_from_string trace_to_string
      CodeTrace.tracePairsLoop dex reify reifyM keep trace_direction
        trace_length_max current_links fuel rest
        (if bool_single then true else bool_satisfied) chains2

/-- Source `fn_process_individual_trace_list_item`, Basic mode: try every
(from, to) combination, and on success process the RETURN element against
the accumulated output chains.  The Advanced engine is a separate component
(outside the claims handled here) and is abstracted by the oracle
`advanced_trace`; its result is returned directly, as in the source. -/
def CodeTrace.fn_process_individual_trace_list_item (dex : Dex)
    (reify : List String → List String)
    (reifyM : List PyMethod → List PyMethod) (keep : PyBoolOrStr)
    (advanced_trace : TraceDict → Links → Bool)
    (default_trace_length_max : Nat) (current_links : Links) (fuel : Nat)
    (trace_dictionary : TraceDict) (output_chains : List String)
    (current_returns : Returns) :
    Except TErr (Bool × List String × Returns) := do
  let params := CodeTrace.fn_get_trace_parameters default_trace_length_max
    trace_dictionary
  if params.2.2 == "ADVANCED" then
    Except.ok (advanced_trace trace_dictionary current_links, output_chains,
      current_returns)
  else do
    let ends := CodeTrace.fn_enumerate_trace_source_sinks trace_dictionary
    let pairs := ends.1.foldl (fun acc f =>
      acc ++ ends.2.map (fun t => (f, t))) []
    let (bool_satisfied, chains2) ← CodeTrace.tracePairsLoop dex reify reifyM
      keep params.2.1 params.1 current_links fuel pairs false output_chains
    if bool_satisfied then
      match trace_dictionary.ret with
      | some returnables => do
          let updated ← liftPy (CodeTrace.fn_analyse_returns params.2.1
            returnables chains2 current_returns)
          Except.ok (true, chains2, updated)
      | none => Except.ok (true, chains2, current_returns)
    else
      Except.ok (false, chains2, current_returns)

/-- A TRACE rule set: a single rule object or a list of rule objects. -/
inductive TraceTemplate where
  | dict (t : TraceDict)
  | list (l : List TraceDict)
deriving DecidableEq

/-- Counting loop of `fn_perform_code_trace` over a list-shaped template. -/
def CodeTrace.traceListLoop (dex : Dex) (reify : List String → List String)
    (reifyM : List PyMethod → List PyMethod) (keep : PyBoolOrStr)
    (advanced_trace : TraceDict → Links → Bool)
    (default_trace_length_max : Nat) (current_links : Links) (fuel : Nat) :
    List TraceDict → Nat → Nat → List String → Returns →
      Except TErr (Bool × List String × Returns)
  | [], total, satisfied, output_chains, current_returns =>
      .ok (total == satisfied, output_chains, current_returns)
  | trace_item :: rest, total, satisfied, output_chains, current_returns => do
      let (b, chains2, returns2) ←
        CodeTrace.fn_process_individual_trace_list_item dex reify reifyM keep
          advanced_trace default_trace_length_max current_links fuel
          trace_item output_chains current_returns
      CodeTrace.traceListLoop dex reify reifyM keep advanced_trace
        default_trace_length_max current_links fuel rest (total + 1)
        (satisfied + if b then 1 else 0) chains2 returns2

/-- Source `fn_perform_code_trace`: reset the output chains, evaluate the
template (dict → single trace, list → AND over traces), convert the
accumulated returns to links on success, and reset the instance state
(`fn_reset`) — the final `Returns` component is the instance's
`current_returns` after the call, always emptied by `fn_reset`.  The
`current_returns0` argument is whatever an earlier use of the instance left
behind (the constructor and `fn_reset` both leave `[]`). -/
def CodeTrace.fn_perform_code_trace (dex : Dex)
    (reify : List String → List String)
    (reifyM : List PyMethod → List PyMethod) (keep : PyBoolOrStr)
    (advanced_trace : TraceDict → Links → Bool)
    (default_trace_length_max : Nat) (trace_template : TraceTemplate)
    (links : Links) (current_returns0 : Returns) (fuel : Nat) :
    Except TErr ((Bool × Links) × Returns) := do
  let output_chains : List String := []
  let (bool_satisfied, _, final_returns) ←
    (match trace_template with
     | .dict t =>
         CodeTrace.fn_process_individual_trace_list_item dex reify reifyM
           keep advanced_trace default_trace_length_max links fuel t
           output_chains current_returns0
     | .list l =>
         CodeTrace.traceListLoop dex reify reifyM keep advanced_trace
           default_trace_length_max links fuel l 0 0 output_chains
           current_returns0)
  if bool_satisfied then do
    let links2 ← liftPy (fn_convert_returns_to_links final_returns links)
    Except.ok ((true, links2), [])
  else
    Except.ok ((false, links), [])

/-- The two per-bug counters of `fn_per_bug_analysis`. -/
structure BugCounters where
  current_bug_search_types : Nat
  current_bug_search_outcomes : Nat
deriving DecidableEq

/-- Source `app_analyser.py fn_handle_manifest_analysis`: an empty
MANIFESTPARAMS object contributes nothing; a non-empty one increments the
required-element counter, and then — before any manifest analysis can run —
the function returns early when the Androguard APK object is `None` (a .dex
input), so the satisfied counter is only ever incremented when an APK object
exists and the analysis (whose boolean outcome is the oracle
`manifest_output`) succeeds. -/
def AppAnalyser.fn_handle_manifest_analysis (manifest_nonempty : Bool)
    (apk_present : Bool) (manifest_output : Bool) (c : BugCounters) :
    BugCounters :=
  if !manifest_nonempty then c
  else
    let c : BugCounters :=
      ⟨c.current_bug_search_types + 1, c.current_bug_search_outcomes⟩
    if !apk_present then c
    else if manifest_output then
      ⟨c.current_bug_search_types, c.current_bug_search_outcomes + 1⟩
    else c

/-- Source `fn_handle_code_analysis`: symmetric counting for the code
category, with the code analysis outcome as the oracle `code_output`. -/
def AppAnalyser.fn_handle_code_analysis (code_nonempty : Bool)
    (code_output : Bool) (c : BugCounters) : BugCounters :=
  if !code_nonempty then c
  else
    let c : BugCounters :=
      ⟨c.current_bug_search_types + 1, c.current_bug_search_outcomes⟩
    if code_output then
      ⟨c.current_bug_search_types, c.current_bug_search_outcomes + 1⟩
    else c

/-- Source `fn_per_bug_analysis` for one bug: reset the counters, walk the
template keys (manifest before code), and declare the bug satisfied iff the
number of categories present equals the number satisfied. -/
def AppAnalyser.fn_per_bug_analysis_verdict (has_manifest_key
    manifest_nonempty has_code_key code_nonempty apk_present manifest_output
    code_output : Bool) : Bool :=
  let c : BugCounters := ⟨0, 0⟩
  let c := if has_manifest_key then
    AppAnalyser.fn_handle_manifest_analysis manifest_nonempty apk_present
      manifest_output c
    else c
  let c := if has_code_key then
    AppAnalyser.fn_handle_code_analysis code_nonempty code_output c
    else c
  c.current_bug_search_types == c.current_bug_search_outcomes

/-- Shape check for one `RETURN` element of a SEARCH object
(template_parser lines 763-792). -/
def TemplateParser.checkSearchReturnElement (return_element : String) :
    Except PyErr Unit :=
  let split_return := pySplit return_element " AS "
  if split_return.length != 2 then
    .error (.jandroidException "RETURN must have AS identifier.")
  else
    let return_type := split_return.headD ""
    if !(return_type == "<class>" || return_type == "<method>") then
      .error (.jandroidException "SEARCH RETURNs must be either <class> or <method>.")
    else
      let return_id := (split_return.drop 1).headD ""
      if !(pyStartsWith return_id "@") then
        .error (.jandroidException "RETURN identifier must begin with @.")
      else
        .ok ()

/-- Loop over the RETURN elements of one search object. -/
def TemplateParser.checkSearchReturnElements :
    List String → Except PyErr Unit
  | [] => .ok ()
  | return_element :: rest => do
      TemplateParser.checkSearchReturnElement return_element
      TemplateParser.checkSearchReturnElements rest

/-- Per-key checks of `__fn_check_code_search` (lines 711-792): location
filters and return bindings are rejected on the presence search types, a
scoped location must use a known scope, and each RETURN element must be
well-shaped.  No check compares one identifier with another. -/
def TemplateParser.checkSearchKeyObject (primary_search_type : String)
    (individual_search_obj : SearchVal) : Except PyErr Unit := do
  (if svContains individual_search_obj "SEARCHLOCATION" then
    if primary_search_type == "SEARCHFORMETHOD"
        || primary_search_type == "SEARCHFORCLASS"
        || primary_search_type == "SEARCHFORSTRING" then
      Except.error (.jandroidException "cannot have SEARCHLOCATION.")
    else do
      let location ← svSubscript individual_search_obj "SEARCHLOCATION"
      if pyIn ":" location then
        let location_type := splitHead location ":"
        if !(location_type == "<class>" || location_type == "<method>") then
          Except.error (.jandroidException "Location must be either <class> or <method>.")
        else Except.ok ()
      else Except.ok ()
  else Except.ok ())
  if svContains individual_search_obj "RETURN" then
    if primary_search_type == "SEARCHFORMETHOD"
        || primary_search_type == "SEARCHFORCLASS"
        || primary_search_type == "SEARCHFORSTRING" then
      Except.error (.jandroidException "cannot have RETURN.")
    else do
      let returnables ← svSubscript individual_search_obj "RETURN"
      let returnable_elements :=
        if pyIn "," returnables then pySplit returnables "," else [returnables]
      TemplateParser.checkSearchReturnElements returnable_elements
  else
    Except.ok ()

/-- Loop of the per-key checks over one rule object's entries. -/
def TemplateParser.checkSearchItems :
    List (String × SearchVal) → Except PyErr Unit
  | [] => .ok ()
  | (primary_search_type, individual_search_obj) :: rest => do
      TemplateParser.checkSearchKeyObject primary_search_type
        individual_search_obj
      TemplateParser.checkSearchItems rest

/-- Dict lookup in a rule object. -/
def TemplateParser.svLookup (d : List (String × SearchVal)) (k : String) :
    Option SearchVal :=
  (d.find? (fun kv => kv.1 == k)).map (fun kv => kv.2)

/-- One row of `__fn_check_object_against_expected_structure` for a
presence search keyword (expected type `str`, not required). -/
def TemplateParser.checkStrKeyword (d : List (String × SearchVal))
    (kw : String) : Except PyErr Unit :=
  match TemplateParser.svLookup d kw with
  | none => .ok ()
  | some (.str _) => .ok ()
  | some (.dict _) => .error (.jandroidException "BadElementType")

/-- One row of `__fn_check_object_against_expected_structure` for a
call-site search keyword (expected type `dict`, with one required sub-key;
all sub-values are strings by the `SearchVal` projection). -/
def TemplateParser.checkDictKeyword (d : List (String × SearchVal))
    (kw subkey : String) : Except PyErr Unit :=
  match TemplateParser.svLookup d kw with
  | none => .ok ()
  | some (.str _) => .error (.jandroidException "BadElementType")
  | some (.dict entries) =>
      if entries.any (fun kv => kv.1 == subkey) then .ok ()
      else .error (.jandroidException "MissingKey")

/-- `__fn_check_object_against_expected_structure` specialised to the SEARCH
keyword table (the only table with sub-keys); unknown keys are ignored and
the function reports success when no expected keyword is violated. -/
def TemplateParser.checkSearchStructure (d : List (String × SearchVal)) :
    Except PyErr Unit := do
  TemplateParser.checkStrKeyword d "SEARCHFORMETHOD"
  TemplateParser.checkDictKeyword d "SEARCHFORCALLTOMETHOD" "METHOD"
  TemplateParser.checkStrKeyword d "SEARCHFORCLASS"
  TemplateParser.checkDictKeyword d "SEARCHFORCALLTOCLASS" "CLASS"
  TemplateParser.checkStrKeyword d "SEARCHFORSTRING"
  TemplateParser.checkDictKeyword d "SEARCHFORCALLTOSTRING" "STRING"

/-- Checks applied to one rule object of the SEARCH section. -/
def TemplateParser.checkSearchObj (d : List (String × SearchVal)) :
    Except PyErr Unit := do
  TemplateParser.checkSearchItems d
  TemplateParser.checkSearchStructure d

/-- Loop over the rule objects of a list-shaped SEARCH section. -/
def TemplateParser.searchObjsLoop :
    List (List (String × SearchVal)) → Except PyErr Unit
  | [] => .ok ()
  | d :: rest => do
      TemplateParser.checkSearchObj d
      TemplateParser.searchObjsLoop rest

/-- Source `__fn_check_code_search`: normalise to a list of rule objects and
check each; an empty list leaves the structure flag unsatisfied and raises. -/
def TemplateParser.fn_check_code_search (code_search_obj : SearchTemplate) :
    Except PyErr Unit :=
  match code_search_obj with
  | .dict d => TemplateParser.checkSearchObj d
  | .list [] => .error (.jandroidException "SEARCH object structure is invalid.")
  | .list l => TemplateParser.searchObjsLoop l

/-- Trace `RETURN` checks of `__fn_check_code_trace` (lines 888-908): the
return shape must be `<tracepath>` and the identifier must begin with
`@tracepath_`; a missing ` AS ` raises `IndexError` at `split(' AS ')[1]`. -/
def TemplateParser.checkTraceReturn (returnables : String) :
    Except PyErr Unit :=
  let return_type := splitHead returnables " AS "
  if !(return_type == "<tracepath>") then
    .error (.jandroidException "Trace RETURN AS must be <tracepath>.")
  else
    match pyIdx1 (pySplit returnables " AS ") with
    | .error e => .error e
    | .ok return_id =>
        if !(pyStartsWith return_id "@tracepath_") then
          .error (.jandroidException "Trace RETURN identifier must begin with @tracepath_.")
        else .ok ()

/-- Per-object checks of `__fn_check_code_trace` (TRACEFROM/TRACETO are
guaranteed by the `TraceDict` projection; the expected-structure types are
likewise guaranteed). -/
def TemplateParser.checkTraceItem (t : TraceDict) : Except PyErr Unit := do
  (match t.ret with
   | some returnables => TemplateParser.checkTraceReturn returnables
   | none => Except.ok ())
  let trace_direction := t.tracedirection.getD "REVERSE"
  (match t.tracedirection with
   | some d =>
      if !(d == "FORWARD" || d == "REVERSE") then
        Except.error (.jandroidException "TRACEDIRECTION must be either FORWARD or REVERSE.")
      else Except.ok ()
   | none => Except.ok ())
  match t.tracetype with
  | none => Except.ok ()
  | some trace_type =>
      if !(trace_type == "BASIC" || trace_type == "ADVANCED") then
        Except.error (.jandroidException "TRACETYPE must be either BASIC or ADVANCED.")
      else
        let f := t.tracefrom
        let tto := t.traceto
        if trace_type == "BASIC" then
          if pyIn "RESULTOF" f || pyIn "RESULTOF" tto then
            Except.error (.jandroidException "BASIC TRACETYPE cannot have RESULTOF.")
          else if pyIn "ARGTO" f || pyIn "ARGTO" tto then
            Except.error (.jandroidException "BASIC TRACETYPE cannot have ARGTO.")
          else if pyIn "ARGINDEX" f || pyIn "ARGINDEX" tto then
            Except.error (.jandroidException "BASIC TRACETYPE cannot have ARGINDEX.")
          else Except.ok ()
        else
          if pyIn "ARGINDEX" f && !(pyIn "ARGTO" f) then
            Except.error (.jandroidException "Cannot have ARGINDEX without ARGTO.")
          else if pyIn "ARGINDEX" tto && !(pyIn "ARGTO" tto) then
            Except.error (.jandroidException "Cannot have ARGINDEX without ARGTO.")
          else if pyIn "RESULTOF" f && trace_direction == "REVERSE" then
            Except.error (.jandroidException "RESULTOF for TRACEFROM can only be used with FORWARD tracing.")
          else if pyIn "ARGTO" f && trace_direction == "FORWARD" then
            Except.error (.jandroidException "ARGTO for TRACEFROM can only be used with REVERSE tracing.")
          else if !(pyIn "RESULTOF" f) && trace_direction == "FORWARD" then
            Except.error (.jandroidException "TRACEFROM can only start from RESULTOF with FORWARD tracing.")
          else if pyIn "RESULTOF" tto && trace_direction == "FORWARD" then
            Except.error (.jandroidException "RESULTOF for TRACETO can only be used with REVERSE tracing.")
          else if pyIn "ARGTO" tto && trace_direction == "REVERSE" then
            Except.error (.jandroidException "ARGTO for TRACETO can only be used with FORWARD tracing.")
          else Except.ok ()

/-- Loop over the trace objects of a list-shaped TRACE section. -/
def TemplateParser.traceObjsLoop : List TraceDict → Except PyErr Unit
  | [] => .ok ()
  | t :: rest => do
      TemplateParser.checkTraceItem t
      TemplateParser.traceObjsLoop rest

/-- Source `__fn_check_code_trace`. -/
def TemplateParser.fn_check_code_trace (code_trace_obj : TraceTemplate) :
    Except PyErr Unit :=
  match code_trace_obj with
  | .dict t => TemplateParser.checkTraceItem t
  | .list [] => .error (.jandroidException "TRACE object structure is not valid.")
  | .list l => TemplateParser.traceObjsLoop l

/-- Source `__fn_check_codeparams`: check whichever of SEARCH and TRACE are
present.  A template whose checks all pass raises nothing and is then added
to the master template object by `__fn_parse_template_file`. -/
def TemplateParser.fn_check_codeparams (search : Option SearchTemplate)
    (trace : Option TraceTemplate) : Except PyErr Unit := do
  (match search with
   | some s => TemplateParser.fn_check_code_search s
   | none => Except.ok ())
  match trace with
  | some t => TemplateParser.fn_check_code_trace t
  | none => Except.ok ()

/-- A Python value that is either a str or a list of str (the manifest
RETURN object shapes accepted by `__fn_check_return`). -/
inductive PyStrOrList where
  | str (s : String)
  | list (l : List String)
deriving DecidableEq

/-- Shape check for one manifest RETURN element (lines 524-584). -/
def TemplateParser.checkManifestReturnElement (return_element : String) :
    Except PyErr Unit :=
  if !(pyIn " AS " return_element) then
    .error (.jandroidException "RETURN element must have unique AS identifier.")
  else
    let return_id := pySplit return_element " AS "
    if return_id.length != 2 then
      .error (.jandroidException "RETURN element must have unique AS identifier.")
    else if !(pyStartsWith ((return_id.drop 1).headD "") "@") then
      .error (.jandroidException "RETURN AS identifier must begin with @.")
    else
      .ok ()

/-- Loop over a list-shaped manifest RETURN object. -/
def TemplateParser.checkManifestReturnList :
    List String → Except PyErr Unit
  | [] => .ok ()
  | return_element :: rest => do
      TemplateParser.checkManifestReturnElement return_element
      TemplateParser.checkManifestReturnList rest

/-- Source `__fn_check_return` (the manifest RETURN checker): per-element
shape checks only — despite the error message's wording, no uniqueness
comparison between identifiers is performed. -/
def TemplateParser.fn_check_return (return_object : PyStrOrList) :
    Except PyErr Unit :=
  match return_object with
  | .str s => TemplateParser.checkManifestReturnElement s
  | .list l => TemplateParser.checkManifestReturnList l

/-- Identity set-order oracle: a valid reification of `list(set(...))`
whenever the collected list holds no duplicates (as in the fixtures below). -/
def idReify : List String → List String := fun l => l

/-- Identity set-order oracle for method sets. -/
def idReifyM : List PyMethod → List PyMethod := fun l => l

/-- Fixture: method `A` of the spec's reverse-ordering example. -/
def c1A : PyMethod := ⟨"La;", "a", "()V"⟩

/-- Fixture: method `B`. -/
def c1B : PyMethod := ⟨"Lb;", "b", "()V"⟩

/-- Fixture: method `C`. -/
def c1C : PyMethod := ⟨"Lc;", "c", "()V"⟩

/-- Fixture: the call graph with edges `C calls B` and `B calls A`. -/
def c1Dex : Dex := ⟨[c1A, c1B, c1C], [(c1C, c1B), (c1B, c1A)], [], [], []⟩

/-- Fixture: a Basic Reverse trace `from=A, to=C` with a Tracepath
ReturnBinding. -/
def c1Trace : TraceDict :=
  ⟨"La;->a()V", "Lc;->c()V", none, none, none,
    some "<tracepath> AS @tracepath_x"⟩

/-- C1: the spec requires the Reverse trace `from=A, to=C` over
`C calls B`, `B calls A` to bind the chain `C,B,A` — every hop of the path,
including the intermediate caller `B`.  Evaluating the embedded code on
exactly that graph binds `"Lc;->c()V,La;->a()V"`: `fn_analyse_trace_point`
never appends the current signature to the chain when the stop condition is
`False`, so the intermediate caller `B` is missing from the output chain
(only the reversal itself happens as specified).  The code contradicts its
own doc comment ("the collection of all xref_from's are stored in an ordered
string"), so this is recorded as a code bug, witnessed by this evaluation. -/
theorem c1_reverse_chain_drops_intermediate_hops :
    CodeTrace.fn_perform_code_trace c1Dex idReify idReifyM (.pyBool false)
      (fun _ _ => false) 25 (.dict c1Trace) [] [] 20 =
      .ok ((true, [("@tracepath_x", ["Lc;->c()V,La;->a()V"])]), [])
    ∧ pyIn "Lb;" "Lc;->c()V,La;->a()V" = false
    ∧ "Lc;->c()V,La;->a()V" ≠ "Lc;->c()V,Lb;->b()V,La;->a()V" := by
  exact ⟨by rfl, by rfl, by decide⟩

/-- C2: a SEARCH given as a non-empty list of rule objects never evaluates
to the AND of its members: `fn_process_individual_search_item` iterates over
`self.search_template` (the list) instead of its `search_dictionary`
argument, and indexing the list with a dict raises `TypeError` on the first
element, whatever the rule objects contain. -/
theorem c2_list_search_raises_type_error :
    ∀ (ctx : SearchCtx) (links : Links) (rets : Returns)
      (d : List (String × SearchVal)) (l : List (List (String × SearchVal))),
      CodeSearch.fn_perform_code_search ctx (.list (d :: l)) links rets =
        .error (.typeError "list indices must be integers or slices, not dict") := by
  intro ctx links rets d l
  rfl

/-- C3: no existence search can return the spec's boolean: a validated
template stores the presence-search value as a string, so the dispatch's
`search_object['METHOD']`/`['CLASS']`/`['STRING']` raises `TypeError`
before the search function even runs; and the search functions themselves
evaluate the uninitialised accumulators `all_methods`/`all_classes` (or the
undefined name `search_string` inside `fn_get_strings`), raising
`NameError`.  "No match" therefore never yields an unsatisfied boolean —
evaluation raises instead. -/
theorem c3_presence_search_raises_instead_of_false :
    (∀ (ctx : SearchCtx) (links : Links) (rets : Returns) (s : String),
      CodeSearch.fn_determine_search_type ctx links "SEARCHFORMETHOD"
        (.str s) rets = .error (.typeError "string indices must be integers"))
    ∧ (∀ (ctx : SearchCtx) (links : Links) (rets : Returns) (s : String),
      CodeSearch.fn_determine_search_type ctx links "SEARCHFORCLASS"
        (.str s) rets = .error (.typeError "string indices must be integers"))
    ∧ (∀ (ctx : SearchCtx) (links : Links) (rets : Returns) (s : String),
      CodeSearch.fn_determine_search_type ctx links "SEARCHFORSTRING"
        (.str s) rets = .error (.typeError "string indices must be integers"))
    ∧ (∀ methods_to_search, ∃ e,
      CodeSearch.fn_search_for_presence_of_method methods_to_search =
        .error e)
    ∧ (∀ classes_to_search,
      CodeSearch.fn_search_for_presence_of_class classes_to_search =
        .error (.nameError "all_classes"))
    ∧ (∀ (dex : Dex) (s : String),
      fn_get_strings dex s = .error (.nameError "search_string")) := by
  refine ⟨fun ctx links rets s => rfl, fun ctx links rets s => rfl,
    fun ctx links rets s => rfl, ?_, fun cls => rfl, fun dex s => rfl⟩
  intro methods_to_search
  cases methods_to_search with
  | nil => exact ⟨.nameError "all_methods", rfl⟩
  | cons c rest =>
      cases h : fn_get_class_method_desc_from_string c with
      | error e =>
          exact ⟨e, by simp [CodeSearch.fn_search_for_presence_of_method, h]⟩
      | ok parts =>
          exact ⟨.nameError "all_methods",
            by simp [CodeSearch.fn_search_for_presence_of_method, h]⟩

/-- Binding a value that is already present under its identifier leaves the
link table unchanged. -/
lemma convert_present_value_noop (id v : String) (links : Links)
    (vals : List String) (hne : id.isEmpty = false)
    (hfind : linksFind links id = some vals) (hmem : v ∈ vals) :
    fn_convert_returns_to_links [(id, v)] links = .ok links := by
  unfold fn_convert_returns_to_links
  rw [if_neg (by simp [hne])]
  by_cases hat : id.front != '@'
  · rw [if_pos hat]
    rfl
  · rw [if_neg hat, hfind]
    simp only [hmem, if_true]
    rfl

/-- C4: the link table is append-only — converting returns to links only
appends to each identifier's resolved list (so existing values are never
overwritten or removed and insertion order is preserved), keeps every list
free of duplicates, resolves unknown identifiers to the empty list without
an error, and re-binding an already-present value is a no-op. -/
theorem c4_link_table_append_only :
    ∀ (rets : List (String × String)) (links links2 : Links),
      fn_convert_returns_to_links rets links = .ok links2 →
      ((∀ id, ∃ tl, AnalysisUtils.fn_get_linked_items links2 id =
          AnalysisUtils.fn_get_linked_items links id ++ tl)
       ∧ (∀ id, (AnalysisUtils.fn_get_linked_items links id).Nodup →
          (AnalysisUtils.fn_get_linked_items links2 id).Nodup)
       ∧ (∀ (l : Links) (key : String), linksFind l key = none →
          AnalysisUtils.fn_get_linked_items l key = [])
       ∧ (∀ (id v : String) (l : Links) (vals : List String),
          id.isEmpty = false → linksFind l id = some vals → v ∈ vals →
          fn_convert_returns_to_links [(id, v)] l = .ok l)) := by
  intro rets links links2 h
  refine ⟨convert_returns_extends rets links links2 h,
    convert_returns_nodup rets links links2 h, ?_,
    convert_present_value_noop⟩
  intro l key hk
  simp [AnalysisUtils.fn_get_linked_items, hk]

/-- Fixture link table for the C4 witness. -/
def c4Links : Links := [("@a", ["w"])]

/-- Fixture returns for the C4 witness: a fresh value, a duplicate of it,
and a fresh identifier. -/
def c4Rets : List (String × String) := [("@a", "x"), ("@a", "x"), ("@b", "y")]

/-- Witness for C4 at a concrete table. -/
theorem c4_link_table_append_only_witness :
    fn_convert_returns_to_links c4Rets c4Links =
      .ok [("@a", ["w", "x"]), ("@b", ["y"])]
    ∧ (∃ tl, AnalysisUtils.fn_get_linked_items
        [("@a", ["w", "x"]), ("@b", ["y"])] "@a" =
        AnalysisUtils.fn_get_linked_items c4Links "@a" ++ tl) :=
  ⟨by rfl,
    (c4_link_table_append_only c4Rets c4Links
      [("@a", ["w", "x"]), ("@b", ["y"])] (by rfl)).1 "@a"⟩

/-- Fixture: first call-to target, called from the filtered-in class. -/
def c5T1 : PyMethod := ⟨"Lx;", "t", "()V"⟩

/-- Fixture: second call-to target, called only from the filtered-out class. -/
def c5T2 : PyMethod := ⟨"Ly;", "u", "()V"⟩

/-- Fixture: call site inside the class the location filter admits. -/
def c5GM : PyMethod := ⟨"Lgood;", "gm", "()V"⟩

/-- Fixture: call site inside a class the location filter rejects. -/
def c5BM : PyMethod := ⟨"Lbad;", "bm", "()V"⟩

/-- Fixture application for C5. -/
def c5Dex : Dex :=
  ⟨[c5T1, c5T2, c5GM, c5BM], [(c5GM, c5T1), (c5BM, c5T2)], [], [], []⟩

/-- Fixture search object: two OR-candidates, a class location filter
admitting only `Lgood;`, and a method-shaped return binding. -/
def c5Obj : SearchVal := .dict [("METHOD", "Lx;->t()V OR Ly;->u()V"),
  ("SEARCHLOCATION", "Lgood;"), ("RETURN", "<method> AS @res")]

/-- Fixture SEARCH template for C5. -/
def c5Tmpl : SearchTemplate := .dict [("SEARCHFORCALLTOMETHOD", c5Obj)]

/-- Fixture search context for C5. -/
def sctx5 : SearchCtx := ⟨c5Dex, idReify, idReifyM, .pyBool false⟩

/-- C5 counterexample: the claim says a call site failing the location
filter is never bound.  On this two-candidate search the first candidate
satisfies the filter, the second candidate's only call site `Lbad;->bm()V`
fails it (third conjunct), and yet the satisfied search binds that call site
under `@res`: when a candidate's post-filter set is empty,
`fn_process_search_location_and_returns` passes the unfiltered call-site
list to the return binding. -/
theorem c5_filtered_out_call_site_bound :
    CodeSearch.fn_perform_code_search sctx5 c5Tmpl [] [] =
      .ok (true, [("@res", ["Lgood;->gm()V", "Lbad;->bm()V"])])
    ∧ "Lbad;->bm()V" ∈ AnalysisUtils.fn_get_linked_items
        [("@res", ["Lgood;->gm()V", "Lbad;->bm()V"])] "@res"
    ∧ CodeSearch.fn_check_callers_against_expectation c5BM "Lgood;"
        "<class>" false = .ok false := by
  refine ⟨by rfl, ?_, by rfl⟩
  simp [AnalysisUtils.fn_get_linked_items, linksFind]

/-- C5 amended: per candidate, whenever the location filter leaves a
non-empty set, the search object's evaluation is satisfied and passes
exactly the post-filter call sites to the return binding — the claim's
guarantee holds candidate-locally; the counterexample above shows it fails
across candidates because an empty post-filter set hands the unfiltered
list to the binding instead. -/
theorem c5_postfilter_binding_characterised :
    ∀ (current_links : Links) (d : List (String × String))
      (loc ret : String) (methods filtered : List PyMethod)
      (rets rets2 : Returns),
      svContains (.dict d) "SEARCHLOCATION" = true →
      svSubscript (.dict d) "SEARCHLOCATION" = .ok loc →
      svContains (.dict d) "RETURN" = true →
      svSubscript (.dict d) "RETURN" = .ok ret →
      CodeSearch.fn_get_methods_satisfying_location_reqs current_links
        methods loc = .ok filtered →
      filtered ≠ [] →
      CodeSearch.fn_analyse_returns ret filtered rets = .ok rets2 →
      CodeSearch.fn_process_search_location_and_returns current_links
        (.dict d) methods rets = .ok (true, rets2) := by
  intro current_links d loc ret methods filtered rets rets2 hc1 hs1 hc2 hs2
    hfil hne hret
  have hlen : filtered.length > 0 := List.length_pos.mpr hne
  unfold CodeSearch.fn_process_search_location_and_returns
  simp only [hc1, if_true, hs1, hc2, hs2, hfil, hret, Bind.bind, Except.bind,
    hlen, if_pos, Bool.not_true, Bool.false_eq_true, if_false]

/-- Witness for the amended C5 statement at the fixture search object. -/
theorem c5_postfilter_binding_characterised_witness :
    (CodeSearch.fn_get_methods_satisfying_location_reqs []
      [c5GM, c5BM] "Lgood;" = .ok [c5GM]
     ∧ CodeSearch.fn_analyse_returns "<method> AS @res" [c5GM] [] =
        .ok [("@res", "Lgood;->gm()V")])
    ∧ CodeSearch.fn_process_search_location_and_returns []
        (.dict [("METHOD", "Lx;->t()V OR Ly;->u()V"),
          ("SEARCHLOCATION", "Lgood;"), ("RETURN", "<method> AS @res")])
        [c5GM, c5BM] [] = .ok (true, [("@res", "Lgood;->gm()V")]) :=
  ⟨⟨by rfl, by rfl⟩,
    c5_postfilter_binding_characterised []
      [("METHOD", "Lx;->t()V OR Ly;->u()V"), ("SEARCHLOCATION", "Lgood;"),
        ("RETURN", "<method> AS @res")]
      "Lgood;" "<method> AS @res" [c5GM, c5BM] [c5GM] []
      [("@res", "Lgood;->gm()V")] (by rfl) (by rfl) (by rfl) (by rfl)
      (by rfl) (by decide) (by rfl)⟩

/-- List folds preserve an invariant that every step preserves. -/
lemma foldl_preserve {α β : Type} (P : β → Prop) (f : β → α → β)
    (hstep : ∀ b a, P b → P (f b a)) :
    ∀ (l : List α) (b : β), P b → P (l.foldl f b) := by
  intro l
  induction l with
  | nil => intro b hb; exact hb
  | cons a rest ih => intro b hb; exact ih (f b a) (hstep b a hb)

/-- Fixture: a caller literally named `onClick`. -/
def c6Click : PyMethod := ⟨"Lui;", "onClick", "(Landroid/view/View;)V"⟩

/-- Fixture: a target whose only caller is the `onClick` callback. -/
def c6Tgt : PyMethod := ⟨"Lv;", "v", "()V"⟩

/-- Fixture application for C6. -/
def c6Dex : Dex := ⟨[c6Tgt, c6Click], [(c6Click, c6Tgt)], [], [], []⟩

/-- C6: the interactive-callback exclusion is unconditional.  The
`AnalysisUtils` constructor stores the configparser string for
`KEEP_INTERACTIVE_ELEMENTS` and then resets any value that is not the
Python bool `True`/`False` — a string never is — so `keep_user_interaction`
is the bool `False` for every configuration, including one that sets the
flag to `True`; consequently no interactive-callback caller ever appears in
a call-site result (first conjunct), and in particular a target called only
from `onClick` yields no call sites even with the flag set (second
conjunct), contradicting the claim's "included when the flag is set". -/
theorem c6_interactive_exclusion_unconditional :
    (∀ (config_value : Option String) (dex : Dex) (cp mp dp : String)
      (m : PyMethod),
      m ∈ fn_get_calls_to_method dex (keep_user_interaction_init config_value)
        cp mp dp →
      fn_check_for_user_interaction_element m.methodName = false)
    ∧ fn_get_calls_to_method c6Dex
        (keep_user_interaction_init (some "True")) "Lv;" "v" "()V" = [] := by
  refine ⟨?_, by rfl⟩
  intro config_value dex cp mp dp m hm
  have hkeep : keep_user_interaction_init config_value = .pyBool false := by
    cases config_value <;> rfl
  rw [hkeep] at hm
  unfold fn_get_calls_to_method at hm
  refine foldl_preserve
    (P := fun (acc : List PyMethod) => ∀ x ∈ acc,
      fn_check_for_user_interaction_element x.methodName = false)
    _ ?_ (fn_get_methods dex cp mp dp) [] (by simp) m hm
  intro b a hb
  refine foldl_preserve
    (P := fun (acc : List PyMethod) => ∀ x ∈ acc,
      fn_check_for_user_interaction_element x.methodName = false)
    _ ?_ (xrefFrom dex a) b hb
  intro b2 caller hb2
  by_cases hc : fn_check_for_user_interaction_element caller.methodName
  · simpa [pyEqBool, hc] using hb2
  · simp only [pyEqBool, hc, Bool.and_false, if_false, beq_self_eq_true,
      Bool.and_true, Bool.false_eq_true]
    by_cases hmem : caller ∈ b2
    · simpa [hmem] using hb2
    · simp only [hmem, if_false]
      intro x hx
      rcases List.mem_append.mp hx with h1 | h1
      · exact hb2 x h1
      · rcases List.mem_singleton.mp h1 with rfl
        exact Bool.not_eq_true _ ▸ (by simpa using hc)

/-- Witness for the universally quantified part of C6: the non-interactive
caller `B` of the C1 fixture survives the filter even with the flag set. -/
theorem c6_interactive_exclusion_unconditional_witness :
    c1B ∈ fn_get_calls_to_method c1Dex
      (keep_user_interaction_init (some "True")) "La;" "a" "()V"
    ∧ fn_check_for_user_interaction_element c1B.methodName = false :=
  ⟨by decide,
    c6_interactive_exclusion_unconditional.1 (some "True") c1Dex "La;" "a"
      "()V" c1B (by decide)⟩

/-- A successful trace evaluation always leaves the instance's returns
accumulator empty (`fn_reset` runs at the end of the call). -/
lemma trace_post_returns_empty (dex : Dex)
    (reify : List String → List String)
    (reifyM : List PyMethod → List PyMethod) (keep : PyBoolOrStr)
    (adv : TraceDict → Links → Bool) (dflt : Nat)
    (tmpl : TraceTemplate) (links : Links) (rets0 : Returns) (fuel : Nat)
    (r : Bool × Links) (post : Returns) :
    CodeTrace.fn_perform_code_trace dex reify reifyM keep adv dflt tmpl
      links rets0 fuel = .ok (r, post) → post = [] := by
  intro h
  unfold CodeTrace.fn_perform_code_trace at h
  simp only [Bind.bind, Except.bind] at h
  cases hm : (match tmpl with
    | .dict t =>
        CodeTrace.fn_process_individual_trace_list_item dex reify reifyM keep
          adv dflt links fuel t [] rets0
    | .list l =>
        CodeTrace.traceListLoop dex reify reifyM keep adv dflt links fuel l
          0 0 [] rets0) with
  | error e =>
      rw [hm] at h
      simp at h
  | ok x =>
      rw [hm] at h
      obtain ⟨b, c, fr⟩ := x
      cases b with
      | true =>
          dsimp only at h
          cases hc : liftPy (fn_convert_returns_to_links fr links) with
          | error e =>
              rw [hc] at h
              simp at h
          | ok l2 =>
              rw [hc] at h
              simp only [if_true, Except.ok.injEq, Prod.mk.injEq] at h
              exact h.2.symm
      | false =>
          simp at h
          exact h.2

/-- C8: evaluation is deterministic.  The search engine resets its returns
accumulator on entry, so two evaluations of the same (template, application)
pair — with the same per-process set-order oracles, the only ambient input —
return identical link tables whatever state an earlier use left behind; the
trace engine resets its accumulator on exit, so a successful evaluation
leaves the empty state and re-evaluating reproduces the identical result,
list equality covering both contents and insertion order. -/
theorem c8_evaluation_deterministic :
    (∀ (ctx : SearchCtx) (tmpl : SearchTemplate) (links : Links)
      (prior1 prior2 : Returns),
      CodeSearch.fn_perform_code_search ctx tmpl links prior1 =
        CodeSearch.fn_perform_code_search ctx tmpl links prior2)
    ∧ (∀ (dex : Dex) (reify : List String → List String)
      (reifyM : List PyMethod → List PyMethod) (keep : PyBoolOrStr)
      (adv : TraceDict → Links → Bool) (dflt : Nat) (tmpl : TraceTemplate)
      (links : Links) (fuel : Nat) (r : Bool × Links) (post : Returns),
      CodeTrace.fn_perform_code_trace dex reify reifyM keep adv dflt tmpl
        links [] fuel = .ok (r, post) →
      post = [] ∧
      CodeTrace.fn_perform_code_trace dex reify reifyM keep adv dflt tmpl
        links post fuel = .ok (r, post)) := by
  refine ⟨fun ctx tmpl links prior1 prior2 => rfl, ?_⟩
  intro dex reify reifyM keep adv dflt tmpl links fuel r post h
  have hp : post = [] :=
    trace_post_returns_empty dex reify reifyM keep adv dflt tmpl links []
      fuel r post h
  subst hp
  exact ⟨rfl, h⟩

/-- Witness for the trace half of C8 at the C1 fixture. -/
theorem c8_evaluation_deterministic_witness :
    CodeTrace.fn_perform_code_trace c1Dex idReify idReifyM (.pyBool false)
      (fun _ _ => false) 25 (.dict c1Trace) [] [] 20 =
      .ok ((true, [("@tracepath_x", ["Lc;->c()V,La;->a()V"])]), [])
    ∧ CodeTrace.fn_perform_code_trace c1Dex idReify idReifyM (.pyBool false)
        (fun _ _ => false) 25 (.dict c1Trace) [] [] 20 =
      .ok ((true, [("@tracepath_x", ["Lc;->c()V,La;->a()V"])]), []) :=
  ⟨by rfl,
    (c8_evaluation_deterministic.2 c1Dex idReify idReifyM (.pyBool false)
      (fun _ _ => false) 25 (.dict c1Trace) [] 20
      (true, [("@tracepath_x", ["Lc;->c()V,La;->a()V"])]) [] (by rfl)).2⟩

/-- C10: on a .dex input there is no APK object, so a bug whose template
carries a non-empty MANIFESTPARAMS section counts the manifest category as
required but skips its evaluation; the satisfied count can then never reach
the required count, and the bug is reported unsatisfied regardless of the
code category's outcome. -/
theorem c10_dex_input_manifest_bug_never_satisfied :
    ∀ (has_code_key code_nonempty manifest_output code_output : Bool),
      AppAnalyser.fn_per_bug_analysis_verdict true true has_code_key
        code_nonempty false manifest_output code_output = false := by
  intro hck cn mo co
  cases hck <;> cases cn <;> cases co <;> rfl

/-- Fixture search object whose RETURN carries the same identifier twice. -/
def c9Obj : SearchVal := .dict [("METHOD", "Lcom/a;->m()V"),
  ("RETURN", "<method> AS @dup,<class> AS @dup")]

/-- Fixture SEARCH template for C9. -/
def c9Tmpl : SearchTemplate := .dict [("SEARCHFORCALLTOMETHOD", c9Obj)]

/-- C9 counterexample: a template binding the identifier `@dup` twice
passes the CODEPARAMS validation without any exception (and is therefore
added to the master template object), and the manifest RETURN checker
likewise accepts a list with two equal identifiers — the claimed
duplicate-identifier and reserved-keyword rejection does not exist. -/
theorem c9_duplicate_identifiers_admitted :
    TemplateParser.fn_check_codeparams (some c9Tmpl) none = .ok ()
    ∧ TemplateParser.fn_check_return
        (.list ["value AS @dup", "value2 AS @dup"]) = .ok () :=
  ⟨by rfl, by rfl⟩

/-- Specification predicate for the amended C9: the only conditions the
search RETURN validator enforces on one element — exactly one ` AS `
separator, a return-type tag `<class>`/`<method>`, and an `@`-prefixed
identifier.  Stated from the spec's words for comparison with the code's
checker. -/
def searchReturnShapeOk (e : String) : Bool :=
  (pySplit e " AS ").length == 2
    && ((pySplit e " AS ").headD "" == "<class>"
        || (pySplit e " AS ").headD "" == "<method>")
    && pyStartsWith (((pySplit e " AS ").drop 1).headD "") "@"

/-- One RETURN element passes the validator iff it is well-shaped. -/
lemma checkSearchReturnElement_ok_iff (e : String) :
    TemplateParser.checkSearchReturnElement e = .ok () ↔
      searchReturnShapeOk e = true := by
  unfold TemplateParser.checkSearchReturnElement searchReturnShapeOk
  dsimp only
  split_ifs with h1 h2 h3 <;> simp_all [bne] <;> tauto

/-- The element loop passes iff every element is well-shaped. -/
lemma checkSearchReturnElements_ok_iff (l : List String) :
    TemplateParser.checkSearchReturnElements l = .ok () ↔
      ∀ e ∈ l, searchReturnShapeOk e = true := by
  induction l with
  | nil => simp [TemplateParser.checkSearchReturnElements]
  | cons e rest ih =>
      unfold TemplateParser.checkSearchReturnElements
      simp only [Bind.bind, Except.bind]
      cases hc : TemplateParser.checkSearchReturnElement e with
      | error err =>
          simp only [List.mem_cons]
          constructor
          · intro h
            exact absurd h (by simp)
          · intro h
            have := (checkSearchReturnElement_ok_iff e).mpr
              (h e (Or.inl rfl))
            rw [hc] at this
            exact absurd this (by simp)
      | ok u =>
          obtain ⟨⟩ := u
          have hshape := (checkSearchReturnElement_ok_iff e).mp hc
          simp only [List.mem_cons]
          rw [ih]
          constructor
          · intro h e2 he2
            rcases he2 with rfl | he2
            · exact hshape
            · exact h e2 he2
          · intro h e2 he2
            exact h e2 (Or.inr he2)

/-- The whole CODEPARAMS validation of a single call-to-method rule object
reduces to the per-element RETURN loop. -/
lemma c9_codeparams_reduction (m ret : String) :
    TemplateParser.fn_check_codeparams
      (some (.dict [("SEARCHFORCALLTOMETHOD",
        .dict [("METHOD", m), ("RETURN", ret)])])) none =
      (match TemplateParser.checkSearchReturnElements
          (if pyIn "," ret then pySplit ret "," else [ret]) with
       | .ok _ => .ok ()
       | .error e => .error e) := by
  cases hc : TemplateParser.checkSearchReturnElements
      (if pyIn "," ret then pySplit ret "," else [ret]) with
  | error e =>
      unfold TemplateParser.fn_check_codeparams
        TemplateParser.fn_check_code_search TemplateParser.checkSearchObj
        TemplateParser.checkSearchItems TemplateParser.checkSearchKeyObject
      simp [hc, Bind.bind, Except.bind, svContains, svSubscript]
  | ok u =>
      obtain ⟨⟩ := u
      unfold TemplateParser.fn_check_codeparams
        TemplateParser.fn_check_code_search TemplateParser.checkSearchObj
        TemplateParser.checkSearchItems TemplateParser.checkSearchKeyObject
      simp [hc, Bind.bind, Except.bind, svContains, svSubscript,
        TemplateParser.checkSearchStructure, TemplateParser.checkStrKeyword,
        TemplateParser.checkDictKeyword, TemplateParser.svLookup,
        TemplateParser.checkSearchItems]

/-- C9 amended: for a call-to-method rule object, CODEPARAMS validation
succeeds iff every RETURN element is individually well-shaped — the
validator never relates one identifier to another (or to any reserved
list), which is exactly why the duplicate-identifier template of the
counterexample is admitted. -/
theorem c9_return_validation_shape_only :
    ∀ (m ret : String),
      TemplateParser.fn_check_codeparams
        (some (.dict [("SEARCHFORCALLTOMETHOD",
          .dict [("METHOD", m), ("RETURN", ret)])])) none = .ok ()
      ↔ ∀ e ∈ (if pyIn "," ret then pySplit ret "," else [ret]),
          searchReturnShapeOk e = true := by
  intro m ret
  rw [c9_codeparams_reduction]
  cases hc : TemplateParser.checkSearchReturnElements
      (if pyIn "," ret then pySplit ret "," else [ret]) with
  | error e =>
      simp only [hc]
      constructor
      · intro h
        exact absurd h (by simp)
      · intro h
        have := (checkSearchReturnElements_ok_iff _).mpr h
        rw [hc] at this
        exact absurd this (by simp)
  | ok u =>
      obtain ⟨⟩ := u
      simp only [hc]
      constructor
      · intro _
        exact (checkSearchReturnElements_ok_iff _).mp hc
      · intro _
        trivial

/-- Fixture: the trace-from method of the C7 ladder. -/
def c7F : PyMethod := ⟨"La;", "f", "()V"⟩

/-- Fixture: ladder caller 1 (method+descriptor equal to the target's). -/
def c7M1 : PyMethod := ⟨"Lc1;", "m", "()V"⟩

/-- Fixture: ladder caller 2. -/
def c7M2 : PyMethod := ⟨"Lc2;", "m", "()V"⟩

/-- Fixture: ladder caller 3. -/
def c7M3 : PyMethod := ⟨"Lc3;", "m", "()V"⟩

/-- Fixture: ladder caller 4. -/
def c7M4 : PyMethod := ⟨"Lc4;", "m", "()V"⟩

/-- Fixture: the trace-to method, topmost caller of the ladder. -/
def c7T : PyMethod := ⟨"Lt;", "m", "()V"⟩

/-- Fixture call graph: a caller ladder `T → M4 → M3 → M2 → M1 → F` whose
intermediate callers share the target's method+descriptor, so each is an
uncertain (`Maybe`) stop and extends the chain. -/
def c7Dex : Dex := ⟨[c7F, c7M1, c7M2, c7M3, c7M4, c7T],
  [(c7M1, c7F), (c7M2, c7M1), (c7M3, c7M2), (c7M4, c7M3), (c7T, c7M4)],
  [], [], []⟩

/-- The six-signature chain reported by the C7 counterexample trace. -/
def c7LongChain : String :=
  "La;->f()V,|MAYBE|Lc1;->m()V,|MAYBE|Lc2;->m()V,|MAYBE|Lc3;->m()V,|MAYBE|Lc4;->m()V,Lt;->m()V"

/-- C7 counterexample: with `maxChainLength = 5`, a Basic Reverse trace on
the ladder graph reports an output chain of six signatures — the length
guard runs before descending, so a chain that already has `maxChainLength`
hops still gains the final matching hop.  The claim's "no reported output
chain contains more than 5 hops" is false as stated (the spec's §3 equates
hops with the chain's signatures). -/
theorem c7_chain_exceeding_max_reported :
    CodeTrace.fn_trace_through_code c7Dex idReify idReifyM (.pyBool false)
      "REVERSE" 5 [] 30 [] "La;->f()V" "Lt;->m()V" =
      .ok (true,
        ["La;->f()V,|MAYBE|Lc1;->m()V",
         "La;->f()V,|MAYBE|Lc1;->m()V,|MAYBE|Lc2;->m()V",
         "La;->f()V,|MAYBE|Lc1;->m()V,|MAYBE|Lc2;->m()V,|MAYBE|Lc3;->m()V",
         "La;->f()V,|MAYBE|Lc1;->m()V,|MAYBE|Lc2;->m()V,|MAYBE|Lc3;->m()V,|MAYBE|Lc4;->m()V",
         c7LongChain])
    ∧ c7LongChain ∈
        ["La;->f()V,|MAYBE|Lc1;->m()V",
         "La;->f()V,|MAYBE|Lc1;->m()V,|MAYBE|Lc2;->m()V",
         "La;->f()V,|MAYBE|Lc1;->m()V,|MAYBE|Lc2;->m()V,|MAYBE|Lc3;->m()V",
         "La;->f()V,|MAYBE|Lc1;->m()V,|MAYBE|Lc2;->m()V,|MAYBE|Lc3;->m()V,|MAYBE|Lc4;->m()V",
         c7LongChain]
    ∧ (pySplit c7LongChain ",").length = 6 := by
  refine ⟨by rfl, by decide, by rfl⟩

/-- Number of signatures (hops) in a chain string, as the engine computes
it: the length of the comma-split. -/
def chainLen (c : String) : Nat :=
  (pySplit c ",").length

/-- Membership characterisation of the single-character substring test. -/
lemma chContains_singleton (c : Char) :
    ∀ (l : List Char), chContains [c] l = true ↔ c ∈ l := by
  intro l
  induction l with
  | nil => simp [chContains]
  | cons a rest ih =>
      simp only [chContains, chIsPrefix, Bool.and_true, Bool.or_eq_true,
        beq_iff_eq, ih, List.mem_cons]

/-- One step of the comma splitter at a comma. -/
lemma pySplitF_step_comma (f : Nat) (acc l : List Char) :
    pySplitF [','] (f + 1) acc (',' :: l) = acc.reverse :: pySplitF [','] f [] l := by
  have hpre : chIsPrefix [','] (',' :: l) = true := by simp [chIsPrefix]
  simp [pySplitF, hpre]

/-- One step of the comma splitter at a non-comma character. -/
lemma pySplitF_step_other (f : Nat) (acc l : List Char) (x : Char)
    (hx : ¬x = ',') :
    pySplitF [','] (f + 1) acc (x :: l) = pySplitF [','] f (x :: acc) l := by
  have hpre : chIsPrefix [','] (x :: l) = false := by
    simp [chIsPrefix]
    exact fun h => hx h.symm
  simp [pySplitF, hpre]

/-- Splitting a comma-free character list yields one piece. -/
lemma pySplitF_comma_free :
    ∀ (l acc : List Char) (f : Nat), l.length < f → (',' ∉ l) →
      pySplitF [','] f acc l = [acc.reverse ++ l] := by
  intro l
  induction l with
  | nil =>
      intro acc f hf hmem
      cases f with
      | zero => omega
      | succ g => simp [pySplitF]
  | cons x rest ih =>
      intro acc f hf hmem
      cases f with
      | zero => simp at hf
      | succ g =>
          have hx : ¬x = ',' := fun h => hmem (h ▸ List.mem_cons_self x rest)
          rw [pySplitF_step_other g acc rest x hx,
            ih (x :: acc) g (by simpa using Nat.lt_of_succ_lt_succ hf)
              (fun h => hmem (List.mem_cons_of_mem x h))]
          simp

/-- The split result does not depend on the fuel, once the fuel exceeds the
list length. -/
lemma pySplitF_fuel_stable :
    ∀ (l acc : List Char) (f g : Nat), l.length < f → l.length < g →
      pySplitF [','] f acc l = pySplitF [','] g acc l := by
  intro l
  induction l with
  | nil =>
      intro acc f g hf hg
      cases f with
      | zero => omega
      | succ f2 =>
          cases g with
          | zero => omega
          | succ g2 => rfl
  | cons x rest ih =>
      intro acc f g hf hg
      cases f with
      | zero => omega
      | succ f2 =>
          cases g with
          | zero => omega
          | succ g2 =>
              simp only [List.length_cons] at hf hg
              by_cases hx : x = ','
              · subst hx
                rw [pySplitF_step_comma, pySplitF_step_comma,
                  ih [] f2 g2 (by omega) (by omega)]
              · rw [pySplitF_step_other f2 acc rest x hx,
                  pySplitF_step_other g2 acc rest x hx,
                  ih (x :: acc) f2 g2 (by omega) (by omega)]

/-- The length of the split does not depend on the accumulator. -/
lemma pySplitF_length_acc :
    ∀ (l : List Char) (acc1 acc2 : List Char) (f : Nat),
      (pySplitF [','] f acc1 l).length = (pySplitF [','] f acc2 l).length := by
  intro l
  induction l with
  | nil =>
      intro acc1 acc2 f
      cases f <;> simp [pySplitF]
  | cons x rest ih =>
      intro acc1 acc2 f
      cases f with
      | zero => simp [pySplitF]
      | succ g =>
          by_cases hx : x = ','
          · subst hx
            rw [pySplitF_step_comma, pySplitF_step_comma]
            simp
          · rw [pySplitF_step_other g acc1 rest x hx,
              pySplitF_step_other g acc2 rest x hx]
            exact ih (x :: acc1) (x :: acc2) g

/-- Split-length of a list with an explicit comma in the middle: the two
sides contribute independently. -/
lemma pySplitF_length_append :
    ∀ (xs ys acc : List Char) (f g h : Nat),
      xs.length + ys.length + 1 < f → xs.length < g → ys.length < h →
      (pySplitF [','] f acc (xs ++ ',' :: ys)).length =
        (pySplitF [','] g acc xs).length +
          (pySplitF [','] h [] ys).length := by
  intro xs
  induction xs with
  | nil =>
      intro ys acc f g h hf hg hh
      cases f with
      | zero => omega
      | succ f2 =>
          cases g with
          | zero => omega
          | succ g2 =>
              simp only [List.nil_append]
              rw [pySplitF_step_comma f2 acc ys,
                pySplitF_fuel_stable ys [] f2 h (by simp at hf; omega) hh]
              simp [pySplitF]
              omega
  | cons x rest ih =>
      intro ys acc f g h hf hg hh
      cases f with
      | zero => omega
      | succ f2 =>
          cases g with
          | zero => omega
          | succ g2 =>
              simp only [List.length_cons] at hf hg
              simp only [List.cons_append]
              by_cases hx : x = ','
              · subst hx
                rw [pySplitF_step_comma f2 acc (rest ++ ',' :: ys),
                  pySplitF_step_comma g2 acc rest]
                simp only [List.length_cons]
                rw [ih ys [] f2 g2 h (by omega) (by omega) hh]
                omega
              · rw [pySplitF_step_other f2 acc (rest ++ ',' :: ys) x hx,
                  pySplitF_step_other g2 acc rest x hx]
                exact ih ys (x :: acc) f2 g2 h (by omega) (by omega) hh
/-- Concatenating strings concatenates their character data. -/
lemma string_data_append (a b : String) : (a ++ b).data = a.data ++ b.data := rfl

/-- A comma-free string is a one-hop chain. -/
lemma chainLen_comma_free (s : String) (h : ',' ∉ s.data) : chainLen s = 1 := by
  have hsep : ",".isEmpty = false := rfl
  simp only [chainLen, pySplit, hsep, Bool.false_eq_true, if_false,
    List.length_map]
  rw [pySplitF_comma_free s.data [] (s.data.length + 1)
    (Nat.lt_succ_self _) h]
  rfl

/-- Extending a chain with a comma-free component adds exactly one hop. -/
lemma chainLen_extend (ch comp : String) (h : ',' ∉ comp.data) :
    chainLen (CodeTrace.extendChain ch comp) =
      if ch == "" then 1 else chainLen ch + 1 := by
  have hsep : ",".isEmpty = false := rfl
  by_cases hch : ch == ""
  · rw [if_pos hch]
    simp only [CodeTrace.extendChain, hch, if_true]
    exact chainLen_comma_free comp h
  · rw [if_neg hch]
    simp only [CodeTrace.extendChain, hch, Bool.false_eq_true, if_false]
    have hdata : (ch ++ "," ++ comp).data = ch.data ++ ',' :: comp.data := by
      rw [string_data_append, string_data_append,
        show (",".data) = [','] from rfl, List.append_assoc]
      rfl
    simp only [chainLen, pySplit, hsep, Bool.false_eq_true, if_false,
      List.length_map, hdata]
    rw [pySplitF_length_append ch.data comp.data []
      ((ch.data ++ ',' :: comp.data).length + 1) (ch.data.length + 1)
      (comp.data.length + 1) (by simp) (Nat.lt_succ_self _)
      (Nat.lt_succ_self _)]
    rw [pySplitF_comma_free comp.data [] (comp.data.length + 1)
      (Nat.lt_succ_self _) h]
    rfl

/-- Filtering with a stronger predicate keeps at most as many elements. -/
lemma filter_length_mono {α : Type} (p q : α → Bool)
    (h : ∀ a, q a = true → p a = true) :
    ∀ l : List α, (l.filter q).length ≤ (l.filter p).length := by
  intro l
  induction l with
  | nil => simp
  | cons a rest ih =>
      by_cases hq : q a = true
      · rw [List.filter_cons_of_pos hq, List.filter_cons_of_pos (h a hq)]
        simpa using ih
      · rw [List.filter_cons_of_neg (by simpa using hq)]
        by_cases hp : p a = true
        · rw [List.filter_cons_of_pos hp]
          exact Nat.le_succ_of_le ih
        · rw [List.filter_cons_of_neg (by simpa using hp)]
          exact ih

/-- Filtering with a stronger predicate that loses a listed element keeps
strictly fewer elements. -/
lemma filter_length_strict {α : Type} (p q : α → Bool)
    (h : ∀ a, q a = true → p a = true) (c : α)
    (hp : p c = true) (hq : q c = false) :
    ∀ l : List α, c ∈ l → (l.filter q).length < (l.filter p).length := by
  intro l
  induction l with
  | nil => intro hmem; simp at hmem
  | cons a rest ih =>
      intro hmem
      rcases List.mem_cons.mp hmem with hca | hca
      · subst hca
        rw [List.filter_cons_of_neg (by simp [hq]),
          List.filter_cons_of_pos hp]
        exact Nat.lt_succ_of_le (filter_length_mono p q h rest)
      · by_cases hqa : q a = true
        · rw [List.filter_cons_of_pos hqa, List.filter_cons_of_pos (h a hqa)]
          simpa using ih hca
        · rw [List.filter_cons_of_neg (by simpa using hqa)]
          by_cases hpa : p a = true
          · rw [List.filter_cons_of_pos hpa]
            exact Nat.lt_succ_of_lt (ih hca)
          · rw [List.filter_cons_of_neg (by simpa using hpa)]
            exact ih hca

/-- `foldl` preserves an invariant when each step does, for steps drawn from
the folded list. -/
lemma foldl_preserve_mem {α β : Type} (P : β → Prop) (Q : α → Prop)
    (f : β → α → β) :
    ∀ (l : List α), (∀ a ∈ l, Q a) →
      (∀ b a, P b → Q a → P (f b a)) → ∀ b, P b → P (l.foldl f b) := by
  intro l
  induction l with
  | nil => intro _ _ b hb; exact hb
  | cons a rest ih =>
      intro hl hstep b hb
      exact ih (fun x hx => hl x (List.mem_cons_of_mem a hx)) hstep (f b a)
        (hstep b a hb (hl a (List.mem_cons_self a rest)))

/-- Callers reported by the cross-reference index are first components of
call edges. -/
lemma mem_xrefFrom (dex : Dex) (m caller : PyMethod)
    (h : caller ∈ xrefFrom dex m) : caller ∈ dex.calls.map Prod.fst := by
  simp only [xrefFrom, List.mem_map, List.mem_filter] at h
  obtain ⟨e, ⟨he, _⟩, rfl⟩ := h
  exact List.mem_map.mpr ⟨e, he, rfl⟩

/-- Callees reported by the cross-reference index are second components of
call edges. -/
lemma mem_xrefTo (dex : Dex) (m callee : PyMethod)
    (h : callee ∈ xrefTo dex m) : callee ∈ dex.calls.map Prod.snd := by
  simp only [xrefTo, List.mem_map, List.mem_filter] at h
  obtain ⟨e, ⟨he, _⟩, rfl⟩ := h
  exact List.mem_map.mpr ⟨e, he, rfl⟩

/-- Every method returned by `fn_get_calls_to_method` is a caller in the
call-edge table. -/
lemma mem_calls_to_method (dex : Dex) (keep : PyBoolOrStr)
    (class_part method_part desc_part : String) :
    ∀ m ∈ fn_get_calls_to_method dex keep class_part method_part desc_part,
      m ∈ dex.calls.map Prod.fst := by
  unfold fn_get_calls_to_method
  refine foldl_preserve (fun acc => ∀ m ∈ acc, m ∈ dex.calls.map Prod.fst)
    _ ?_ _ [] (by simp)
  intro acc mo hacc
  refine foldl_preserve_mem (fun acc => ∀ m ∈ acc, m ∈ dex.calls.map Prod.fst)
    (fun caller => caller ∈ dex.calls.map Prod.fst) _ _
    (fun caller hc => mem_xrefFrom dex mo caller hc) ?_ acc hacc
  intro b a hb ha
  split_ifs with h1 h2
  · exact hb
  · exact hb
  · intro m hm
    rcases List.mem_append.mp hm with hm | hm
    · exact hb m hm
    · rw [List.mem_singleton.mp hm]; exact ha

/-- Every method returned by `fn_get_calls_from_method` is a callee in the
call-edge table, provided the set-order oracle returns a sublist. -/
lemma mem_calls_from_method (dex : Dex) (keep : PyBoolOrStr)
    (reifyM : List PyMethod → List PyMethod) (exclude_external : Bool)
    (class_part method_part desc_part : String)
    (hM : ∀ (l : List PyMethod) (m : PyMethod), m ∈ reifyM l → m ∈ l) :
    ∀ m ∈ fn_get_calls_from_method dex keep reifyM exclude_external
        class_part method_part desc_part,
      m ∈ dex.calls.map Prod.snd := by
  intro m hm
  simp only [fn_get_calls_from_method] at hm
  refine foldl_preserve (fun acc => ∀ m ∈ acc, m ∈ dex.calls.map Prod.snd)
    _ ?_ _ [] (by simp) m (hM _ m hm)
  intro acc mo hacc
  refine foldl_preserve_mem (fun acc => ∀ m ∈ acc, m ∈ dex.calls.map Prod.snd)
    (fun callee => callee ∈ dex.calls.map Prod.snd) _ _
    (fun callee hc => mem_xrefTo dex mo callee hc) ?_ acc hacc
  intro b a hb ha
  split_ifs with h1 h2
  · exact hb
  · exact hb
  · intro m hm
    rcases List.mem_append.mp hm with hm | hm
    · exact hb m hm
    · rw [List.mem_singleton.mp hm]; exact ha

/-- The Python `l[1]` value is the head of the tail. -/
lemma pyIdx1_headD (l : List String) (x : String) (h : pyIdx1 l = .ok x) :
    (l.drop 1).headD "" = x := by
  unfold pyIdx1 at h
  cases hd : l.drop 1 with
  | nil => rw [hd] at h; exact absurd h (by simp)
  | cons y rest => rw [hd] at h; simp at h; simp [hd, h]
/-- The compound signature `fn_analyse_trace_point` receives when `revMds`
processes one method descriptor under one class part. -/
def mdCompound (class_part md : String) : String :=
  class_part ++ "->" ++ splitHead md "(" ++
    ("(" ++ ((pySplit md "(").drop 1).headD "")

/-- All compound signatures a reverse step can submit for one starting
point: every (sub)class part combined with every revised method
descriptor. -/
def revPointCompounds (ctx : TraceCtx) (m : PyMethod) : List String :=
  let parts := fn_get_class_method_desc_from_method m
  let class_parts := parts.1 ::
    fn_find_subclasses ctx.dex ctx.reify (subsFuel ctx.dex) parts.1
  let mds := if parts.2.1 == "doInBackground" then
      (CodeTrace.fn_handle_special_case_reverse ctx parts.1).getD []
    else [parts.2.1 ++ parts.2.2]
  class_parts.flatMap (fun c => mds.map (fun md => mdCompound c md))

/-- The compound signature a forward step submits for one starting point. -/
def fwdPointCompound (m : PyMethod) : String :=
  let parts := fn_get_class_method_desc_from_method m
  match special_case_object_list_forward (parts.2.1 ++ parts.2.2) with
  | some substituted => parts.1 ++ "->" ++ substituted ++ "."
  | none => parts.1 ++ "->" ++ parts.2.1 ++ parts.2.2

/-- All compound signatures either trace direction can submit for one
starting point. -/
def pointCompounds (ctx : TraceCtx) (m : PyMethod) : List String :=
  revPointCompounds ctx m ++ [fwdPointCompound m]

/-- The finite universe of compound signatures reachable below the top level
of a traversal: every endpoint of every call edge contributes its possible
compounds. -/
def traceUniverse (ctx : TraceCtx) : List String :=
  (ctx.dex.calls.map Prod.fst ++ ctx.dex.calls.map Prod.snd).flatMap
    (pointCompounds ctx)

/-- How many universe compounds the visited set does not yet contain: the
termination measure of one traversal. -/
def uncheckedCount (ctx : TraceCtx) (st : TState) : Nat :=
  ((traceUniverse ctx).filter
    (fun c => decide (c ∉ st.checked_methods))).length

/-- All recorded output chains stay within one hop over the configured
maximum. -/
def ChainBounded (ctx : TraceCtx) (st : TState) : Prop :=
  ∀ c ∈ st.output_chains, chainLen c ≤ ctx.trace_length_max + 1

/-- Soundness of a trace continuation at a given fuel bound: whenever the
measure is below the bound, the submitted compound lies in the universe, the
incoming chain respects the maximum and the accumulated chains are bounded,
the continuation does not exhaust its fuel, and on success it only grows the
visited set and keeps the chains bounded. -/
def NextOk (ctx : TraceCtx) (bound : Nat) (next : TraceNext) : Prop :=
  ∀ st cp mp dp ch,
    uncheckedCount ctx st < bound →
    cp ++ "->" ++ mp ++ dp ∈ traceUniverse ctx →
    chainLen ch ≤ ctx.trace_length_max →
    ChainBounded ctx st →
    next st cp mp dp ch ≠ .error .fuelExhausted ∧
      ∀ st', next st cp mp dp ch = .ok st' →
        st.checked_methods ⊆ st'.checked_methods ∧ ChainBounded ctx st'

/-- Growing the visited set can only shrink the measure. -/
lemma uncheckedCount_mono (ctx : TraceCtx) (st st' : TState)
    (h : st.checked_methods ⊆ st'.checked_methods) :
    uncheckedCount ctx st' ≤ uncheckedCount ctx st := by
  refine filter_length_mono _ _ ?_ (traceUniverse ctx)
  intro a ha
  simp only [decide_eq_true_eq] at ha ⊢
  exact fun hmem => ha (h hmem)

/-- Visiting an unvisited universe compound strictly shrinks the measure. -/
lemma uncheckedCount_insert (ctx : TraceCtx) (st : TState) (c : String)
    (hcU : c ∈ traceUniverse ctx) (hc : c ∉ st.checked_methods)
    (chains : List String) :
    uncheckedCount ctx ⟨st.checked_methods ++ [c], chains⟩ <
      uncheckedCount ctx st := by
  refine filter_length_strict _ _ ?_ c ?_ ?_ (traceUniverse ctx) hcU
  · intro a ha
    simp only [decide_eq_true_eq] at ha ⊢
    exact fun hmem => ha (List.mem_append_left _ hmem)
  · simpa using hc
  · simp

/-- The measure never exceeds the universe size. -/
lemma uncheckedCount_le (ctx : TraceCtx) (st : TState) :
    uncheckedCount ctx st ≤ (traceUniverse ctx).length :=
  List.length_filter_le _ _

/-- The inner reverse loop is sound: given a sound continuation, universe
membership of each descriptor compound, and a bounded state, it does not
exhaust fuel, only grows the visited set, and keeps chains bounded. -/
lemma revMds_ok (ctx : TraceCtx) (bound : Nat) (next : TraceNext)
    (hnext : NextOk ctx bound next) :
    ∀ (mds : List String) (st : TState) (class_part ch : String),
      uncheckedCount ctx st < bound →
      (∀ md ∈ mds, mdCompound class_part md ∈ traceUniverse ctx) →
      chainLen ch ≤ ctx.trace_length_max →
      ChainBounded ctx st →
      CodeTrace.revMds next st class_part mds ch ≠ .error .fuelExhausted ∧
        ∀ st', CodeTrace.revMds next st class_part mds ch = .ok st' →
          st.checked_methods ⊆ st'.checked_methods ∧ ChainBounded ctx st' := by
  intro mds
  induction mds with
  | nil =>
      intro st cp ch _ _ _ hcb
      constructor
      · simp [CodeTrace.revMds]
      · intro st' h
        simp only [CodeTrace.revMds, Except.ok.injEq] at h
        exact h ▸ ⟨fun x hx => hx, hcb⟩
  | cons md rest ih =>
      intro st cp ch hcount hmem hch hcb
      cases hidx : pyIdx1 (pySplit md "(") with
      | error e =>
          have hred : CodeTrace.revMds next st cp (md :: rest) ch =
              .error (.py e) := by
            simp [CodeTrace.revMds, hidx, liftPy, Bind.bind, Except.bind]
          rw [hred]
          exact ⟨by simp, fun st' h => by simp at h⟩
      | ok dtail =>
          have hcomp : cp ++ "->" ++ splitHead md "(" ++ ("(" ++ dtail) ∈
              traceUniverse ctx := by
            have hm := hmem md (List.mem_cons_self md rest)
            rw [mdCompound, pyIdx1_headD _ _ hidx] at hm
            exact hm
          obtain ⟨hne1, hok1⟩ := hnext st cp (splitHead md "(")
            ("(" ++ dtail) ch hcount hcomp hch hcb
          cases hres : next st cp (splitHead md "(") ("(" ++ dtail) ch with
          | error e2 =>
              have hred : CodeTrace.revMds next st cp (md :: rest) ch =
                  .error e2 := by
                simp [CodeTrace.revMds, hidx, liftPy, hres, Bind.bind,
                  Except.bind]
              rw [hred]
              refine ⟨fun hcontra => ?_, fun st' h => by simp at h⟩
              rw [hres] at hne1
              exact hne1 (by rw [Except.error.injEq] at hcontra ⊢; exact hcontra)
          | ok st2 =>
              obtain ⟨hsub2, hcb2⟩ := hok1 st2 hres
              have hcount2 : uncheckedCount ctx st2 < bound :=
                Nat.lt_of_le_of_lt (uncheckedCount_mono ctx st st2 hsub2) hcount
              have hred : CodeTrace.revMds next st cp (md :: rest) ch =
                  CodeTrace.revMds next st2 cp rest ch := by
                simp [CodeTrace.revMds, hidx, liftPy, hres, Bind.bind,
                  Except.bind]
              rw [hred]
              obtain ⟨hne3, hok3⟩ := ih st2 cp ch hcount2
                (fun x hx => hmem x (List.mem_cons_of_mem md hx)) hch hcb2
              exact ⟨hne3, fun st' h =>
                ⟨fun x hx => (hok3 st' h).1 (hsub2 hx), (hok3 st' h).2⟩⟩
/-- Every reverse-step compound of a call-edge endpoint lies in the
universe. -/
lemma mdCompound_mem_universe (ctx : TraceCtx) (m : PyMethod)
    (hm : m ∈ ctx.dex.calls.map Prod.fst ++ ctx.dex.calls.map Prod.snd)
    (c md : String)
    (hc : c ∈ (fn_get_class_method_desc_from_method m).1 ::
      fn_find_subclasses ctx.dex ctx.reify (subsFuel ctx.dex)
        (fn_get_class_method_desc_from_method m).1)
    (hmd : md ∈
      (if (fn_get_class_method_desc_from_method m).2.1 == "doInBackground"
       then (CodeTrace.fn_handle_special_case_reverse ctx
         (fn_get_class_method_desc_from_method m).1).getD []
       else [(fn_get_class_method_desc_from_method m).2.1 ++
         (fn_get_class_method_desc_from_method m).2.2])) :
    mdCompound c md ∈ traceUniverse ctx := by
  refine List.mem_flatMap.mpr ⟨m, hm, ?_⟩
  simp only [pointCompounds, revPointCompounds]
  refine List.mem_append_left _ ?_
  exact List.mem_flatMap.mpr ⟨c, hc, List.mem_map.mpr ⟨md, hmd, rfl⟩⟩

/-- The forward-step compound of a call-edge endpoint lies in the
universe. -/
lemma fwdPointCompound_mem_universe (ctx : TraceCtx) (m : PyMethod)
    (hm : m ∈ ctx.dex.calls.map Prod.fst ++ ctx.dex.calls.map Prod.snd) :
    fwdPointCompound m ∈ traceUniverse ctx := by
  refine List.mem_flatMap.mpr ⟨m, hm, ?_⟩
  simp [pointCompounds]

/-- The middle reverse loop over class parts is sound. -/
lemma revClassParts_ok (ctx : TraceCtx) (bound : Nat) (next : TraceNext)
    (hnext : NextOk ctx bound next) :
    ∀ (class_parts : List String) (st : TState) (mds : List String)
      (ch : String),
      uncheckedCount ctx st < bound →
      (∀ c ∈ class_parts, ∀ md ∈ mds, mdCompound c md ∈ traceUniverse ctx) →
      chainLen ch ≤ ctx.trace_length_max →
      ChainBounded ctx st →
      CodeTrace.revClassParts next st class_parts mds ch ≠
          .error .fuelExhausted ∧
        ∀ st', CodeTrace.revClassParts next st class_parts mds ch = .ok st' →
          st.checked_methods ⊆ st'.checked_methods ∧ ChainBounded ctx st' := by
  intro class_parts
  induction class_parts with
  | nil =>
      intro st mds ch _ _ _ hcb
      constructor
      · simp [CodeTrace.revClassParts]
      · intro st' h
        simp only [CodeTrace.revClassParts, Except.ok.injEq] at h
        exact h ▸ ⟨fun x hx => hx, hcb⟩
  | cons c rest ih =>
      intro st mds ch hcount hmem hch hcb
      obtain ⟨hne1, hok1⟩ := revMds_ok ctx bound next hnext mds st c ch hcount
        (fun md hmd => hmem c (List.mem_cons_self c rest) md hmd) hch hcb
      cases hres : CodeTrace.revMds next st c mds ch with
      | error e =>
          have hred : CodeTrace.revClassParts next st (c :: rest) mds ch =
              .error e := by
            simp [CodeTrace.revClassParts, hres, Bind.bind, Except.bind]
          rw [hred]
          refine ⟨fun hcontra => ?_, fun st' h => by simp at h⟩
          rw [hres] at hne1
          exact hne1 (by rw [Except.error.injEq] at hcontra ⊢; exact hcontra)
      | ok st2 =>
          obtain ⟨hsub2, hcb2⟩ := hok1 st2 hres
          have hcount2 : uncheckedCount ctx st2 < bound :=
            Nat.lt_of_le_of_lt (uncheckedCount_mono ctx st st2 hsub2) hcount
          have hred : CodeTrace.revClassParts next st (c :: rest) mds ch =
              CodeTrace.revClassParts next st2 rest mds ch := by
            simp [CodeTrace.revClassParts, hres, Bind.bind, Except.bind]
          rw [hred]
          obtain ⟨hne3, hok3⟩ := ih st2 mds ch hcount2
            (fun x hx md hmd => hmem x (List.mem_cons_of_mem c hx) md hmd)
            hch hcb2
          exact ⟨hne3, fun st' h =>
            ⟨fun x hx => (hok3 st' h).1 (hsub2 hx), (hok3 st' h).2⟩⟩

/-- The outer reverse loop over starting points is sound. -/
lemma revPoints_ok (ctx : TraceCtx) (bound : Nat) (next : TraceNext)
    (hnext : NextOk ctx bound next) :
    ∀ (points : List PyMethod) (st : TState) (ch : String),
      uncheckedCount ctx st < bound →
      (∀ m ∈ points, m ∈ ctx.dex.calls.map Prod.fst) →
      chainLen ch ≤ ctx.trace_length_max →
      ChainBounded ctx st →
      CodeTrace.revPoints ctx next st points ch ≠ .error .fuelExhausted ∧
        ∀ st', CodeTrace.revPoints ctx next st points ch = .ok st' →
          st.checked_methods ⊆ st'.checked_methods ∧ ChainBounded ctx st' := by
  intro points
  induction points with
  | nil =>
      intro st ch _ _ _ hcb
      constructor
      · simp [CodeTrace.revPoints]
      · intro st' h
        simp only [CodeTrace.revPoints, Except.ok.injEq] at h
        exact h ▸ ⟨fun x hx => hx, hcb⟩
  | cons m rest ih =>
      intro st ch hcount hmem hch hcb
      have hmm : m ∈ ctx.dex.calls.map Prod.fst ++ ctx.dex.calls.map Prod.snd :=
        List.mem_append_left _ (hmem m (List.mem_cons_self m rest))
      by_cases hdib :
          ((fn_get_class_method_desc_from_method m).2.1 == "doInBackground")
            = true
      · cases hsp : CodeTrace.fn_handle_special_case_reverse ctx
            (fn_get_class_method_desc_from_method m).1 with
        | none =>
            have hred : CodeTrace.revPoints ctx next st (m :: rest) ch =
                .error (.py (.typeError "NoneType is not iterable")) := by
              simp [CodeTrace.revPoints, hdib, hsp, Bind.bind, Except.bind]
            rw [hred]
            exact ⟨by simp, fun st' h => by simp at h⟩
        | some revised =>
            have hmemc : ∀ c ∈ (fn_get_class_method_desc_from_method m).1 ::
                fn_find_subclasses ctx.dex ctx.reify (subsFuel ctx.dex)
                  (fn_get_class_method_desc_from_method m).1,
                ∀ md ∈ revised, mdCompound c md ∈ traceUniverse ctx := by
              intro c hc md hmd
              refine mdCompound_mem_universe ctx m hmm c md hc ?_
              rw [if_pos hdib, hsp]
              exact hmd
            obtain ⟨hne1, hok1⟩ := revClassParts_ok ctx bound next hnext
              _ st revised ch hcount hmemc hch hcb
            cases hres : CodeTrace.revClassParts next st
                ((fn_get_class_method_desc_from_method m).1 ::
                  fn_find_subclasses ctx.dex ctx.reify (subsFuel ctx.dex)
                    (fn_get_class_method_desc_from_method m).1) revised ch with
            | error e =>
                have hred : CodeTrace.revPoints ctx next st (m :: rest) ch =
                    .error e := by
                  simp [CodeTrace.revPoints, hdib, hsp, hres, Bind.bind,
                    Except.bind]
                rw [hred]
                refine ⟨fun hcontra => ?_, fun st' h => by simp at h⟩
                rw [hres] at hne1
                exact hne1
                  (by rw [Except.error.injEq] at hcontra ⊢; exact hcontra)
            | ok st2 =>
                obtain ⟨hsub2, hcb2⟩ := hok1 st2 hres
                have hcount2 : uncheckedCount ctx st2 < bound :=
                  Nat.lt_of_le_of_lt (uncheckedCount_mono ctx st st2 hsub2)
                    hcount
                have hred : CodeTrace.revPoints ctx next st (m :: rest) ch =
                    CodeTrace.revPoints ctx next st2 rest ch := by
                  simp [CodeTrace.revPoints, hdib, hsp, hres, Bind.bind,
                    Except.bind]
                rw [hred]
                obtain ⟨hne3, hok3⟩ := ih st2 ch hcount2
                  (fun x hx => hmem x (List.mem_cons_of_mem m hx)) hch hcb2
                exact ⟨hne3, fun st' h =>
                  ⟨fun x hx => (hok3 st' h).1 (hsub2 hx), (hok3 st' h).2⟩⟩
      · have hmemc : ∀ c ∈ (fn_get_class_method_desc_from_method m).1 ::
            fn_find_subclasses ctx.dex ctx.reify (subsFuel ctx.dex)
              (fn_get_class_method_desc_from_method m).1,
            ∀ md ∈ [(fn_get_class_method_desc_from_method m).2.1 ++
              (fn_get_class_method_desc_from_method m).2.2],
            mdCompound c md ∈ traceUniverse ctx := by
          intro c hc md hmd
          refine mdCompound_mem_universe ctx m hmm c md hc ?_
          rw [if_neg hdib]
          exact hmd
        obtain ⟨hne1, hok1⟩ := revClassParts_ok ctx bound next hnext
          _ st _ ch hcount hmemc hch hcb
        cases hres : CodeTrace.revClassParts next st
            ((fn_get_class_method_desc_from_method m).1 ::
              fn_find_subclasses ctx.dex ctx.reify (subsFuel ctx.dex)
                (fn_get_class_method_desc_from_method m).1)
            [(fn_get_class_method_desc_from_method m).2.1 ++
              (fn_get_class_method_desc_from_method m).2.2] ch with
        | error e =>
            have hred : CodeTrace.revPoints ctx next st (m :: rest) ch =
                .error e := by
              simp [CodeTrace.revPoints, hdib, hres, Bind.bind, Except.bind]
            rw [hred]
            refine ⟨fun hcontra => ?_, fun st' h => by simp at h⟩
            rw [hres] at hne1
            exact hne1 (by rw [Except.error.injEq] at hcontra ⊢; exact hcontra)
        | ok st2 =>
            obtain ⟨hsub2, hcb2⟩ := hok1 st2 hres
            have hcount2 : uncheckedCount ctx st2 < bound :=
              Nat.lt_of_le_of_lt (uncheckedCount_mono ctx st st2 hsub2) hcount
            have hred : CodeTrace.revPoints ctx next st (m :: rest) ch =
                CodeTrace.revPoints ctx next st2 rest ch := by
              simp [CodeTrace.revPoints, hdib, hres, Bind.bind, Except.bind]
            rw [hred]
            obtain ⟨hne3, hok3⟩ := ih st2 ch hcount2
              (fun x hx => hmem x (List.mem_cons_of_mem m hx)) hch hcb2
            exact ⟨hne3, fun st' h =>
              ⟨fun x hx => (hok3 st' h).1 (hsub2 hx), (hok3 st' h).2⟩⟩
/-- `fn_trace_reverse` is sound: its starting points are all callers drawn
from the call-edge table, so each submitted compound stays inside the
universe. -/
lemma fn_trace_reverse_ok (ctx : TraceCtx) (bound : Nat) (next : TraceNext)
    (hnext : NextOk ctx bound next) (st : TState)
    (class_part method_part desc_part ch : String)
    (hcount : uncheckedCount ctx st < bound)
    (hch : chainLen ch ≤ ctx.trace_length_max)
    (hcb : ChainBounded ctx st) :
    CodeTrace.fn_trace_reverse ctx next st class_part method_part desc_part ch
        ≠ .error .fuelExhausted ∧
      ∀ st', CodeTrace.fn_trace_reverse ctx next st class_part method_part
          desc_part ch = .ok st' →
        st.checked_methods ⊆ st'.checked_methods ∧ ChainBounded ctx st' := by
  have hpts : ∀ m ∈ (fn_find_subclasses ctx.dex ctx.reify (subsFuel ctx.dex)
      class_part).foldl (fun acc subclass =>
        acc ++ fn_get_calls_to_method ctx.dex ctx.keep subclass method_part
          desc_part)
      (fn_get_calls_to_method ctx.dex ctx.keep class_part method_part
        desc_part),
      m ∈ ctx.dex.calls.map Prod.fst := by
    refine foldl_preserve (fun acc => ∀ m ∈ acc, m ∈ ctx.dex.calls.map
      Prod.fst) _ ?_ _ _
      (mem_calls_to_method ctx.dex ctx.keep class_part method_part desc_part)
    intro acc sub hacc m hm
    rcases List.mem_append.mp hm with hm | hm
    · exact hacc m hm
    · exact mem_calls_to_method ctx.dex ctx.keep sub method_part desc_part m hm
  exact revPoints_ok ctx bound next hnext _ st ch hcount hpts hch hcb

/-- The forward loop over starting points is sound. -/
lemma fwdPoints_ok (ctx : TraceCtx) (bound : Nat) (next : TraceNext)
    (hnext : NextOk ctx bound next) :
    ∀ (points : List PyMethod) (st : TState) (ch : String),
      uncheckedCount ctx st < bound →
      (∀ m ∈ points, m ∈ ctx.dex.calls.map Prod.snd) →
      chainLen ch ≤ ctx.trace_length_max →
      ChainBounded ctx st →
      CodeTrace.fwdPoints next st points ch ≠ .error .fuelExhausted ∧
        ∀ st', CodeTrace.fwdPoints next st points ch = .ok st' →
          st.checked_methods ⊆ st'.checked_methods ∧ ChainBounded ctx st' := by
  intro points
  induction points with
  | nil =>
      intro st ch _ _ _ hcb
      constructor
      · simp [CodeTrace.fwdPoints]
      · intro st' h
        simp only [CodeTrace.fwdPoints, Except.ok.injEq] at h
        exact h ▸ ⟨fun x hx => hx, hcb⟩
  | cons m rest ih =>
      intro st ch hcount hmem hch hcb
      have hmm : m ∈ ctx.dex.calls.map Prod.fst ++ ctx.dex.calls.map Prod.snd :=
        List.mem_append_right _ (hmem m (List.mem_cons_self m rest))
      have hcompU := fwdPointCompound_mem_universe ctx m hmm
      cases hsc : special_case_object_list_forward
          ((fn_get_class_method_desc_from_method m).2.1 ++
            (fn_get_class_method_desc_from_method m).2.2) with
      | some substituted =>
          have hcomp : (fn_get_class_method_desc_from_method m).1 ++ "->" ++
              substituted ++ "." ∈ traceUniverse ctx := by
            rw [fwdPointCompound, hsc] at hcompU
            exact hcompU
          obtain ⟨hne1, hok1⟩ := hnext st
            (fn_get_class_method_desc_from_method m).1 substituted "." ch
            hcount hcomp hch hcb
          cases hres : next st (fn_get_class_method_desc_from_method m).1
              substituted "." ch with
          | error e =>
              have hred : CodeTrace.fwdPoints next st (m :: rest) ch =
                  .error e := by
                simp [CodeTrace.fwdPoints, hsc, hres, Bind.bind, Except.bind]
              rw [hred]
              refine ⟨fun hcontra => ?_, fun st' h => by simp at h⟩
              rw [hres] at hne1
              exact hne1 (by rw [Except.error.injEq] at hcontra ⊢; exact hcontra)
          | ok st2 =>
              obtain ⟨hsub2, hcb2⟩ := hok1 st2 hres
              have hcount2 : uncheckedCount ctx st2 < bound :=
                Nat.lt_of_le_of_lt (uncheckedCount_mono ctx st st2 hsub2) hcount
              have hred : CodeTrace.fwdPoints next st (m :: rest) ch =
                  CodeTrace.fwdPoints next st2 rest ch := by
                simp [CodeTrace.fwdPoints, hsc, hres, Bind.bind, Except.bind]
              rw [hred]
              obtain ⟨hne3, hok3⟩ := ih st2 ch hcount2
                (fun x hx => hmem x (List.mem_cons_of_mem m hx)) hch hcb2
              exact ⟨hne3, fun st' h =>
                ⟨fun x hx => (hok3 st' h).1 (hsub2 hx), (hok3 st' h).2⟩⟩
      | none =>
          have hcomp : (fn_get_class_method_desc_from_method m).1 ++ "->" ++
              (fn_get_class_method_desc_from_method m).2.1 ++
              (fn_get_class_method_desc_from_method m).2.2 ∈
              traceUniverse ctx := by
            rw [fwdPointCompound, hsc] at hcompU
            exact hcompU
          obtain ⟨hne1, hok1⟩ := hnext st
            (fn_get_class_method_desc_from_method m).1
            (fn_get_class_method_desc_from_method m).2.1
            (fn_get_class_method_desc_from_method m).2.2 ch
            hcount hcomp hch hcb
          cases hres : next st (fn_get_class_method_desc_from_method m).1
              (fn_get_class_method_desc_from_method m).2.1
              (fn_get_class_method_desc_from_method m).2.2 ch with
          | error e =>
              have hred : CodeTrace.fwdPoints next st (m :: rest) ch =
                  .error e := by
                simp [CodeTrace.fwdPoints, hsc, hres, Bind.bind, Except.bind]
              rw [hred]
              refine ⟨fun hcontra => ?_, fun st' h => by simp at h⟩
              rw [hres] at hne1
              exact hne1 (by rw [Except.error.injEq] at hcontra ⊢; exact hcontra)
          | ok st2 =>
              obtain ⟨hsub2, hcb2⟩ := hok1 st2 hres
              have hcount2 : uncheckedCount ctx st2 < bound :=
                Nat.lt_of_le_of_lt (uncheckedCount_mono ctx st st2 hsub2) hcount
              have hred : CodeTrace.fwdPoints next st (m :: rest) ch =
                  CodeTrace.fwdPoints next st2 rest ch := by
                simp [CodeTrace.fwdPoints, hsc, hres, Bind.bind, Except.bind]
              rw [hred]
              obtain ⟨hne3, hok3⟩ := ih st2 ch hcount2
                (fun x hx => hmem x (List.mem_cons_of_mem m hx)) hch hcb2
              exact ⟨hne3, fun st' h =>
                ⟨fun x hx => (hok3 st' h).1 (hsub2 hx), (hok3 st' h).2⟩⟩

/-- `fn_trace_forward` is sound when the set-order oracle returns sublists:
its starting points are all callees drawn from the call-edge table. -/
lemma fn_trace_forward_ok (ctx : TraceCtx) (bound : Nat) (next : TraceNext)
    (hnext : NextOk ctx bound next)
    (hM : ∀ (l : List PyMethod) (m : PyMethod), m ∈ ctx.reifyM l → m ∈ l)
    (st : TState) (class_part method_part desc_part ch : String)
    (hcount : uncheckedCount ctx st < bound)
    (hch : chainLen ch ≤ ctx.trace_length_max)
    (hcb : ChainBounded ctx st) :
    CodeTrace.fn_trace_forward ctx next st class_part method_part desc_part ch
        ≠ .error .fuelExhausted ∧
      ∀ st', CodeTrace.fn_trace_forward ctx next st class_part method_part
          desc_part ch = .ok st' →
        st.checked_methods ⊆ st'.checked_methods ∧ ChainBounded ctx st' :=
  fwdPoints_ok ctx bound next hnext _ st ch hcount
    (mem_calls_from_method ctx.dex ctx.keep ctx.reifyM false class_part
      method_part desc_part hM)
    hch hcb
/-- The `|MAYBE|` marker introduces no comma. -/
lemma maybe_comma_free (s : String) (h : ',' ∉ s.data) :
    ',' ∉ ("|MAYBE|" ++ s).data := by
  rw [string_data_append]
  intro hx
  rcases List.mem_append.mp hx with hx | hx
  · exact absurd hx (by decide)
  · exact h hx

/-- An extended chain stays within one hop over the maximum when the added
component is comma-free and the old chain respects the maximum. -/
lemma chainLen_extend_le (ctx : TraceCtx) (ch comp : String)
    (hcomma : ',' ∉ comp.data) (hch : chainLen ch ≤ ctx.trace_length_max) :
    chainLen (CodeTrace.extendChain ch comp) ≤ ctx.trace_length_max + 1 := by
  rw [chainLen_extend ch comp hcomma]
  by_cases hempty : ch == ""
  · rw [if_pos hempty]
    exact Nat.succ_le_succ (Nat.zero_le _)
  · rw [if_neg hempty]
    exact Nat.add_le_add_right hch 1

/-- Core soundness of `fn_analyse_trace_point`: at any fuel strictly above
the measure it cannot exhaust its fuel, only grows the visited set, and
keeps every recorded chain within one hop over the maximum. -/
lemma analysePoint_NextOk (ctx : TraceCtx)
    (hM : ∀ (l : List PyMethod) (m : PyMethod), m ∈ ctx.reifyM l → m ∈ l)
    (hU : ∀ c ∈ traceUniverse ctx, ',' ∉ c.data) :
    ∀ fuel : Nat, NextOk ctx fuel
      (fun st cp mp dp ch =>
        CodeTrace.fn_analyse_trace_point ctx fuel st cp mp dp ch) := by
  intro fuel
  induction fuel with
  | zero =>
      intro st cp mp dp ch hcount
      exact absurd hcount (Nat.not_lt_zero _)
  | succ fuel ih =>
      intro st cp mp dp ch hcount hmem hch hcb
      show CodeTrace.fn_analyse_trace_point ctx (fuel + 1) st cp mp dp ch ≠
          Except.error TErr.fuelExhausted ∧
        ∀ st', CodeTrace.fn_analyse_trace_point ctx (fuel + 1) st cp mp dp ch
            = Except.ok st' →
          st.checked_methods ⊆ st'.checked_methods ∧ ChainBounded ctx st'
      have hcomma : ',' ∉ (cp ++ "->" ++ mp ++ dp).data := hU _ hmem
      by_cases hin : cp ++ "->" ++ mp ++ dp ∈ st.checked_methods
      · simp only [CodeTrace.fn_analyse_trace_point, hin, if_true]
        refine ⟨by simp, fun st' h => ?_⟩
        obtain rfl : st = st' := by simpa using h
        exact ⟨fun x hx => hx, hcb⟩
      · have hsubin : st.checked_methods ⊆
            st.checked_methods ++ [cp ++ "->" ++ mp ++ dp] :=
          fun x hx => List.mem_append_left _ hx
        cases hstop : CodeTrace.fn_check_stop_condition ctx
            (cp ++ "->" ++ mp ++ dp) with
        | condTrue =>
            by_cases hchmem :
                CodeTrace.extendChain ch (cp ++ "->" ++ mp ++ dp) ∈
                  st.output_chains
            · simp only [CodeTrace.fn_analyse_trace_point, hin, if_false,
                hstop, hchmem, if_true]
              refine ⟨by simp, fun st' h => ?_⟩
              obtain rfl : (⟨st.checked_methods ++ [cp ++ "->" ++ mp ++ dp],
                  st.output_chains⟩ : TState) = st' := by simpa using h
              exact ⟨hsubin, hcb⟩
            · simp only [CodeTrace.fn_analyse_trace_point, hin, if_false,
                hstop, hchmem, if_true]
              refine ⟨by simp, fun st' h => ?_⟩
              obtain rfl : (⟨st.checked_methods ++ [cp ++ "->" ++ mp ++ dp],
                  st.output_chains ++
                    [CodeTrace.extendChain ch (cp ++ "->" ++ mp ++ dp)]⟩ :
                  TState) = st' := by simpa using h
              refine ⟨hsubin, fun c hc => ?_⟩
              rcases List.mem_append.mp hc with hc | hc
              · exact hcb c hc
              · rw [List.mem_singleton.mp hc]
                exact chainLen_extend_le ctx ch _ hcomma hch
        | condMaybe =>
            have hcomma2 : ',' ∉ ("|MAYBE|" ++ (cp ++ "->" ++ mp ++ dp)).data :=
              maybe_comma_free _ hcomma
            by_cases hchmem :
                CodeTrace.extendChain ch
                  ("|MAYBE|" ++ (cp ++ "->" ++ mp ++ dp)) ∈ st.output_chains
            · simp only [CodeTrace.fn_analyse_trace_point, hin, if_false,
                hstop, hchmem, if_true]
              refine ⟨by simp, fun st' h => ?_⟩
              obtain rfl : (⟨st.checked_methods ++ [cp ++ "->" ++ mp ++ dp],
                  st.output_chains⟩ : TState) = st' := by simpa using h
              exact ⟨hsubin, hcb⟩
            · have hcb2 : ChainBounded ctx
                  ⟨st.checked_methods ++ [cp ++ "->" ++ mp ++ dp],
                    st.output_chains ++
                      [CodeTrace.extendChain ch
                        ("|MAYBE|" ++ (cp ++ "->" ++ mp ++ dp))]⟩ := by
                intro c hc
                rcases List.mem_append.mp hc with hc | hc
                · exact hcb c hc
                · rw [List.mem_singleton.mp hc]
                  exact chainLen_extend_le ctx ch _ hcomma2 hch
              by_cases hlen :
                  (pySplit (CodeTrace.extendChain ch
                    ("|MAYBE|" ++ (cp ++ "->" ++ mp ++ dp))) ",").length >
                    ctx.trace_length_max
              · simp only [CodeTrace.fn_analyse_trace_point, hin, if_false,
                  hstop, hchmem, hlen, if_true]
                refine ⟨by simp, fun st' h => ?_⟩
                obtain rfl : (⟨st.checked_methods ++ [cp ++ "->" ++ mp ++ dp],
                    st.output_chains ++
                      [CodeTrace.extendChain ch
                        ("|MAYBE|" ++ (cp ++ "->" ++ mp ++ dp))]⟩ :
                    TState) = st' := by simpa using h
                exact ⟨hsubin, hcb2⟩
              · have hch2 : chainLen (CodeTrace.extendChain ch
                    ("|MAYBE|" ++ (cp ++ "->" ++ mp ++ dp))) ≤
                      ctx.trace_length_max := Nat.le_of_not_lt hlen
                have hcount2 : uncheckedCount ctx
                    ⟨st.checked_methods ++ [cp ++ "->" ++ mp ++ dp],
                      st.output_chains ++
                        [CodeTrace.extendChain ch
                          ("|MAYBE|" ++ (cp ++ "->" ++ mp ++ dp))]⟩ < fuel := by
                  have := uncheckedCount_insert ctx st
                    (cp ++ "->" ++ mp ++ dp) hmem hin
                    (st.output_chains ++
                      [CodeTrace.extendChain ch
                        ("|MAYBE|" ++ (cp ++ "->" ++ mp ++ dp))])
                  omega
                by_cases hdir : ctx.trace_direction == "FORWARD"
                · simp only [CodeTrace.fn_analyse_trace_point, hin, if_false,
                    hstop, hchmem, hlen, hdir, if_true]
                  obtain ⟨hne, hok⟩ := fn_trace_forward_ok ctx fuel _ ih hM
                    _ cp mp dp _ hcount2 hch2 hcb2
                  exact ⟨hne, fun st' h =>
                    ⟨fun x hx => (hok st' h).1 (hsubin hx), (hok st' h).2⟩⟩
                · simp only [CodeTrace.fn_analyse_trace_point, hin, if_false,
                    hstop, hchmem, hlen, hdir, if_true]
                  obtain ⟨hne, hok⟩ := fn_trace_reverse_ok ctx fuel _ ih
                    _ cp mp dp _ hcount2 hch2 hcb2
                  exact ⟨hne, fun st' h =>
                    ⟨fun x hx => (hok st' h).1 (hsubin hx), (hok st' h).2⟩⟩
        | condFalse =>
            by_cases hlen : (pySplit ch ",").length > ctx.trace_length_max
            · simp only [CodeTrace.fn_analyse_trace_point, hin, if_false,
                hstop, hlen, if_true]
              refine ⟨by simp, fun st' h => ?_⟩
              obtain rfl : (⟨st.checked_methods ++ [cp ++ "->" ++ mp ++ dp],
                  st.output_chains⟩ : TState) = st' := by simpa using h
              exact ⟨hsubin, hcb⟩
            · have hcb1 : ChainBounded ctx
                  ⟨st.checked_methods ++ [cp ++ "->" ++ mp ++ dp],
                    st.output_chains⟩ := hcb
              have hcount2 : uncheckedCount ctx
                  ⟨st.checked_methods ++ [cp ++ "->" ++ mp ++ dp],
                    st.output_chains⟩ < fuel := by
                have := uncheckedCount_insert ctx st
                  (cp ++ "->" ++ mp ++ dp) hmem hin st.output_chains
                omega
              by_cases hdir : ctx.trace_direction == "FORWARD"
              · simp only [CodeTrace.fn_analyse_trace_point, hin, if_false,
                  hstop, hlen, hdir, if_true]
                obtain ⟨hne, hok⟩ := fn_trace_forward_ok ctx fuel _ ih hM
                  _ cp mp dp _ hcount2 hch hcb1
                exact ⟨hne, fun st' h =>
                  ⟨fun x hx => (hok st' h).1 (hsubin hx), (hok st' h).2⟩⟩
              · simp only [CodeTrace.fn_analyse_trace_point, hin, if_false,
                  hstop, hlen, hdir, if_true]
                obtain ⟨hne, hok⟩ := fn_trace_reverse_ok ctx fuel _ ih
                  _ cp mp dp _ hcount2 hch hcb1
                exact ⟨hne, fun st' h =>
                  ⟨fun x hx => (hok st' h).1 (hsubin hx), (hok st' h).2⟩⟩
/-- The per-candidate handler loop is sound: with fuel above the universe
size it cannot exhaust fuel, and every chain it accumulates stays within one
hop over the maximum. -/
lemma handlerLoop_ok (ctx : TraceCtx)
    (hM : ∀ (l : List PyMethod) (m : PyMethod), m ∈ ctx.reifyM l → m ∈ l)
    (hU : ∀ c ∈ traceUniverse ctx, ',' ∉ c.data)
    (hmax : 1 ≤ ctx.trace_length_max) (fuel : Nat)
    (hfuel : (traceUniverse ctx).length < fuel) :
    ∀ (froms chains : List String),
      (∀ s ∈ froms, ',' ∉ s.data) →
      (∀ c ∈ chains, chainLen c ≤ ctx.trace_length_max + 1) →
      CodeTrace.handlerLoop ctx fuel froms chains ≠ .error .fuelExhausted ∧
        ∀ out, CodeTrace.handlerLoop ctx fuel froms chains = .ok out →
          ∀ c ∈ out, chainLen c ≤ ctx.trace_length_max + 1 := by
  intro froms
  induction froms with
  | nil =>
      intro chains _ hcb
      constructor
      · simp [CodeTrace.handlerLoop]
      · intro out h
        simp only [CodeTrace.handlerLoop, Except.ok.injEq] at h
        exact h ▸ hcb
  | cons f rest ih =>
      intro chains hfr hcb
      cases hdet : CodeTrace.fn_determine_class_method_desc f
          ctx.from_class_method with
      | error e =>
          have hred : CodeTrace.handlerLoop ctx fuel (f :: rest) chains =
              .error (.py e) := by
            simp [CodeTrace.handlerLoop, hdet, liftPy, Bind.bind, Except.bind]
          rw [hred]
          exact ⟨by simp, fun out h => by simp at h⟩
      | ok parts =>
          have hcb0 : ChainBounded ctx ⟨[], chains⟩ := fun c hc => hcb c hc
          have hcount0 : uncheckedCount ctx ⟨[], chains⟩ < fuel :=
            Nat.lt_of_le_of_lt (uncheckedCount_le ctx _) hfuel
          have hch0 : chainLen f ≤ ctx.trace_length_max := by
            rw [chainLen_comma_free f (hfr f (List.mem_cons_self f rest))]
            exact hmax
          by_cases hdir : ctx.trace_direction == "REVERSE"
          · obtain ⟨hne, hok⟩ := fn_trace_reverse_ok ctx fuel _
              (analysePoint_NextOk ctx hM hU fuel) ⟨[], chains⟩
              parts.1 parts.2.1 parts.2.2 f hcount0 hch0 hcb0
            cases hres : CodeTrace.fn_trace_reverse ctx
                (fun st2 cp mp dp ch =>
                  CodeTrace.fn_analyse_trace_point ctx fuel st2 cp mp dp ch)
                ⟨[], chains⟩ parts.1 parts.2.1 parts.2.2 f with
            | error e =>
                have hred : CodeTrace.handlerLoop ctx fuel (f :: rest) chains =
                    .error e := by
                  simp [CodeTrace.handlerLoop, hdet, liftPy, hdir, hres,
                    Bind.bind, Except.bind]
                rw [hred]
                refine ⟨fun hcontra => ?_, fun out h => by simp at h⟩
                rw [hres] at hne
                exact hne
                  (by rw [Except.error.injEq] at hcontra ⊢; exact hcontra)
            | ok st1 =>
                have hred : CodeTrace.handlerLoop ctx fuel (f :: rest) chains =
                    CodeTrace.handlerLoop ctx fuel rest st1.output_chains := by
                  simp [CodeTrace.handlerLoop, hdet, liftPy, hdir, hres,
                    Bind.bind, Except.bind]
                rw [hred]
                exact ih st1.output_chains
                  (fun s hs => hfr s (List.mem_cons_of_mem f hs))
                  (hok st1 hres).2
          · obtain ⟨hne, hok⟩ := fn_trace_forward_ok ctx fuel _
              (analysePoint_NextOk ctx hM hU fuel) hM ⟨[], chains⟩
              parts.1 parts.2.1 parts.2.2 f hcount0 hch0 hcb0
            cases hres : CodeTrace.fn_trace_forward ctx
                (fun st2 cp mp dp ch =>
                  CodeTrace.fn_analyse_trace_point ctx fuel st2 cp mp dp ch)
                ⟨[], chains⟩ parts.1 parts.2.1 parts.2.2 f with
            | error e =>
                have hred : CodeTrace.handlerLoop ctx fuel (f :: rest) chains =
                    .error e := by
                  simp [CodeTrace.handlerLoop, hdet, liftPy, hdir, hres,
                    Bind.bind, Except.bind]
                rw [hred]
                refine ⟨fun hcontra => ?_, fun out h => by simp at h⟩
                rw [hres] at hne
                exact hne
                  (by rw [Except.error.injEq] at hcontra ⊢; exact hcontra)
            | ok st1 =>
                have hred : CodeTrace.handlerLoop ctx fuel (f :: rest) chains =
                    CodeTrace.handlerLoop ctx fuel rest st1.output_chains := by
                  simp [CodeTrace.handlerLoop, hdet, liftPy, hdir, hres,
                    Bind.bind, Except.bind]
                rw [hred]
                exact ih st1.output_chains
                  (fun s hs => hfr s (List.mem_cons_of_mem f hs))
                  (hok st1 hres).2
/-- C7 (amended): every Basic-mode trace run terminates on every call graph
— with any fuel exceeding the finite compound-signature universe the engine
never exhausts it, because each per-candidate traversal visits any signature
at most once — and no reported output chain exceeds
`trace_length_max + 1` signatures: the length guard runs before descending,
so the final matching hop can overshoot the configured maximum by exactly
one.  (Hypotheses: the set-order oracle returns sublists, signatures are
comma-free, and the configured maximum is at least 1.) -/
theorem c7_trace_terminates_with_bound (ctx : TraceCtx) (fuel : Nat)
    (hM : ∀ (l : List PyMethod) (m : PyMethod), m ∈ ctx.reifyM l → m ∈ l)
    (hU : ∀ c ∈ traceUniverse ctx, ',' ∉ c.data)
    (hmax : 1 ≤ ctx.trace_length_max)
    (hfuel : (traceUniverse ctx).length < fuel)
    (trace_from_list : List String)
    (hfroms : ∀ s ∈ trace_from_list, ',' ∉ s.data) :
    CodeTrace.fn_trace_handler ctx fuel [] trace_from_list ≠
        .error .fuelExhausted ∧
      ∀ res, CodeTrace.fn_trace_handler ctx fuel [] trace_from_list =
          .ok res →
        ∀ c ∈ res.2, chainLen c ≤ ctx.trace_length_max + 1 := by
  obtain ⟨hne, hok⟩ := handlerLoop_ok ctx hM hU hmax fuel hfuel
    trace_from_list [] hfroms (by simp)
  cases hres : CodeTrace.handlerLoop ctx fuel trace_from_list [] with
  | error e =>
      have hred : CodeTrace.fn_trace_handler ctx fuel [] trace_from_list =
          .error e := by
        simp [CodeTrace.fn_trace_handler, hres, Bind.bind, Except.bind]
      rw [hred]
      refine ⟨fun hcontra => ?_, fun res h => by simp at h⟩
      rw [hres] at hne
      exact hne (by rw [Except.error.injEq] at hcontra ⊢; exact hcontra)
  | ok chains =>
      have hred : CodeTrace.fn_trace_handler ctx fuel [] trace_from_list =
          .ok (chains != [], chains) := by
        simp [CodeTrace.fn_trace_handler, hres, Bind.bind, Except.bind]
      rw [hred]
      refine ⟨by simp, fun res h => ?_⟩
      obtain rfl : ((chains != [], chains) : Bool × List String) = res := by
        simpa using h
      exact hok chains hres

/-- Fixture: three methods calling each other in a cycle. -/
def c7CycA : PyMethod := ⟨"La;", "a", "()V"⟩

/-- Fixture cycle, second method. -/
def c7CycB : PyMethod := ⟨"Lb;", "b", "()V"⟩

/-- Fixture cycle, third method. -/
def c7CycC : PyMethod := ⟨"Lc;", "c", "()V"⟩

/-- Fixture: a cyclic call graph (C calls B, B calls A, A calls C). -/
def c7CycDex : Dex :=
  ⟨[c7CycA, c7CycB, c7CycC],
   [(c7CycC, c7CycB), (c7CycB, c7CycA), (c7CycA, c7CycC)], [], [], []⟩

/-- Fixture: a reverse Basic trace over the cyclic graph with maximum chain
length 5. -/
def c7CycCtx : TraceCtx :=
  ⟨c7CycDex, fun l => l, fun l => l, .pyBool true, "REVERSE", "<method>",
   "<method>", ["Lc;->c()V"], true, 5⟩

theorem c7_trace_terminates_with_bound_witness :
    CodeTrace.fn_trace_handler c7CycCtx 50 [] ["La;->a()V"] ≠
        .error .fuelExhausted ∧
      ∀ res, CodeTrace.fn_trace_handler c7CycCtx 50 [] ["La;->a()V"] =
          .ok res →
        ∀ c ∈ res.2, chainLen c ≤ c7CycCtx.trace_length_max + 1 :=
  c7_trace_terminates_with_bound c7CycCtx 50 (fun l m h => h) (by decide)
    (by decide) (by decide) ["La;->a()V"] (by decide)
